import Mathlib

/-!
# subnetter CLI: API client layer

A shallow embedding of `cli/internal/client` (types.go, client.go) and of the
command handlers in `cli/cmd` that carry logic (carve-children, create-vrf, seed).

Conventions.
* Go `string` / `[]byte` values are Lean `String`s (sequences of Unicode scalar values);
  byte strings that are not valid UTF-8 are outside the model.
* Go `int` is `Int`; no arithmetic is performed on these values by the code.
* A Go pointer `*T` is `Option T` (`none` is `nil`); a Go slice `[]T` is
  `Option (List T)` (`none` is the nil slice, the zero value).
* A Go `error` result is `Option GoError` (`none` is `nil`).
* Calls that leave the process or the repository (`json.Marshal`, `json.Unmarshal`,
  `http.NewRequest`, `http.Client.Do` followed by `io.ReadAll`) are fields of `Env`;
  theorems quantify over every `Env`.  `time.Parse` is modelled concretely for the layouts
  the code uses; `goEnv` is a reference environment with a concrete JSON decoder, used for
  closed examples.
* A request carries the payload handed to `json.Marshal` rather than its encoding.
* `fmt.Printf` output of the command handlers is not modelled.
-/

/-! ## Go strings -/

/-- The Go function `strings.TrimRight(s, cutset)`: `s` without its trailing characters
that occur in `cutset`. -/
def strings.TrimRight (s cutset : String) : String :=
  ⟨(s.data.reverse.dropWhile (fun c => cutset.data.contains c)).reverse⟩

/-- The Go function `strings.Trim(s, cutset)`: `s` without its leading and trailing
characters that occur in `cutset`. -/
def strings.Trim (s cutset : String) : String :=
  ⟨((s.data.dropWhile (fun c => cutset.data.contains c)).reverse.dropWhile
      (fun c => cutset.data.contains c)).reverse⟩

/-- Substring test on Go strings: `sub` occurs in `s` as a contiguous run. -/
def Contains (s sub : String) : Prop := sub.data <:+: s.data

instance (s sub : String) : Decidable (Contains s sub) := by
  unfold Contains; infer_instance

/-! ## Values of type `any` produced by `encoding/json` -/

/-- A Go value of type `any` as built by `encoding/json`: `nil`, `bool`, `float64` (kept as
the source literal it was converted from), `string`, `[]any`, `map[string]any`. -/
inductive JValue where
  | null : JValue
  | bool (b : Bool) : JValue
  | num (raw : String) : JValue
  | str (s : String) : JValue
  | arr (xs : List JValue) : JValue
  | obj (kvs : List (String × JValue)) : JValue
  deriving Repr, Inhabited

/-! ## types.go: data and error types -/

/-- The Go type `time.Time`, reduced to the instant it denotes: whole seconds elapsed since
0001-01-01T00:00:00 UTC (the zero `time.Time`) and nanoseconds within the second. -/
structure time.Time where
  sec : Int
  nsec : Nat
  deriving DecidableEq, Repr

instance : Inhabited time.Time := ⟨⟨0, 0⟩⟩

structure APITime where
  Time : time.Time
  deriving DecidableEq, Repr

instance : Inhabited APITime := ⟨⟨default⟩⟩

structure TenantOut where
  ID : String
  Name : String
  CreatedAt : APITime
  deriving DecidableEq, Repr

instance : Inhabited TenantOut := ⟨⟨"", "", default⟩⟩

structure VrfOut where
  ID : String
  TenantID : String
  Name : String
  RD : Option String
  CreatedAt : APITime
  deriving DecidableEq, Repr

instance : Inhabited VrfOut := ⟨⟨"", "", "", none, default⟩⟩

structure PrefixOut where
  ID : String
  VRFID : String
  CIDR : String
  Status : String
  Desc : String
  ParentID : Option String
  CreatedAt : APITime
  deriving DecidableEq, Repr

instance : Inhabited PrefixOut := ⟨⟨"", "", "", "", "", none, default⟩⟩

structure NextIPOut where
  ID : String
  Address : String
  deriving DecidableEq, Repr

instance : Inhabited NextIPOut := ⟨⟨"", ""⟩⟩

structure APIError where
  Err : String
  Message : String
  Details : Option (List (String × JValue))
  deriving Repr

instance : Inhabited APIError := ⟨⟨"", "", none⟩⟩

/-- The method `(*APIError).Error`; the receiver is a pointer, `none` being `nil`. -/
def APIError.Error (e : Option APIError) : String :=
  match e with
  | none => "<nil>"
  | some e => if e.Message ≠ "" then e.Message else e.Err

/-- An error value created outside the repository (transport, URL parsing, JSON, time
parsing); the program only ever reads its text. -/
structure LibError where
  text : String
  deriving DecidableEq, Repr

/-- Go `error` values occurring in the program.
* `lib e`: an error created outside the repository, passed on as it is;
* `new text`: `errors.New(text)` or `fmt.Errorf` without `%w`;
* `api e`: a non-nil `*APIError`;
* `wrapf pre inner post`: `fmt.Errorf` with one `%w` verb, `pre` and `post` being the
  formatted text before and after it. -/
inductive GoError where
  | lib (e : LibError) : GoError
  | new (text : String) : GoError
  | api (e : APIError) : GoError
  | wrapf (pre : String) (inner : GoError) (post : String) : GoError
  deriving Repr

/-- The `Error()` method of a Go error value. -/
def GoError.Error : GoError → String
  | .lib e => e.text
  | .new text => text
  | .api e => APIError.Error (some e)
  | .wrapf pre inner post => pre ++ inner.Error ++ post

/-- The Go function `errors.Unwrap`. -/
def GoError.Unwrap : GoError → Option GoError
  | .wrapf _ inner _ => some inner
  | _ => none

/-! ## The Go package `time`: parsing with the three layouts used by types.go

`time.Parse` walks the layout chunk by chunk (`nextStdChunk`); the chunk sequences of the
three layouts are written out below and interpreted by `time.parse` as the library's
`parse` loop does.  Errors are collapsed to `none`: the caller only tests `err == nil`. -/

namespace time

/-- Layout chunks: literal text and the standard elements occurring in the three layouts. -/
inductive Std where
  | lit (text : List Char)
  | stdLongYear
  | stdZeroMonth
  | stdZeroDay
  | stdHour
  | stdZeroMinute
  | stdZeroSecond
  | stdFracSecond9
  | stdISO8601ColonTZ
  deriving DecidableEq, Repr

/-- The layout `time.RFC3339Nano`, i.e. 2006-01-02T15:04:05.999999999Z07:00. -/
def RFC3339Nano : List Std :=
  [.stdLongYear, .lit ['-'], .stdZeroMonth, .lit ['-'], .stdZeroDay, .lit ['T'], .stdHour,
   .lit [':'], .stdZeroMinute, .lit [':'], .stdZeroSecond, .stdFracSecond9, .stdISO8601ColonTZ]

/-- The layout `time.RFC3339`, i.e. 2006-01-02T15:04:05Z07:00. -/
def RFC3339 : List Std :=
  [.stdLongYear, .lit ['-'], .stdZeroMonth, .lit ['-'], .stdZeroDay, .lit ['T'], .stdHour,
   .lit [':'], .stdZeroMinute, .lit [':'], .stdZeroSecond, .stdISO8601ColonTZ]

/-- The layout 2006-01-02T15:04:05.999999 (microseconds, no zone). -/
def layoutMicro : List Std :=
  [.stdLongYear, .lit ['-'], .stdZeroMonth, .lit ['-'], .stdZeroDay, .lit ['T'], .stdHour,
   .lit [':'], .stdZeroMinute, .lit [':'], .stdZeroSecond, .stdFracSecond9]

/-- The layout 2006-01-02T15:04:05 (seconds, no zone). -/
def layoutSeconds : List Std :=
  [.stdLongYear, .lit ['-'], .stdZeroMonth, .lit ['-'], .stdZeroDay, .lit ['T'], .stdHour,
   .lit [':'], .stdZeroMinute, .lit [':'], .stdZeroSecond]

def isDigit (c : Char) : Bool := decide ('0' ≤ c) && decide (c ≤ '9')

def digitVal (c : Char) : Nat := c.toNat - '0'.toNat

def commaOrPeriod (c : Char) : Bool := c == '.' || c == ','

/-- The library function `getnum`: one or two leading digits, exactly two when `fixed`. -/
def getnum (s : List Char) (fixed : Bool) : Option (Nat × List Char) :=
  match s with
  | [] => none
  | c0 :: rest =>
    if !isDigit c0 then none
    else
      match rest with
      | c1 :: rest2 =>
        if isDigit c1 then some (digitVal c0 * 10 + digitVal c1, rest2)
        else if fixed then none else some (digitVal c0, rest)
      | [] => if fixed then none else some (digitVal c0, rest)

/-- The decimal value of a run of digits (`atoi` on an unsigned digit string). -/
def atoiDigits (ds : List Char) : Nat := ds.foldl (fun acc c => acc * 10 + digitVal c) 0

/-- A fractional second at the head of `value` (separator and digits), as read by the
`stdFracSecond9` case and by the special case of `stdSecond`: every digit is consumed, the
first nine count (`parseNanoseconds`).  `none` when no fraction is present. -/
def fracSecond (value : List Char) : Option (Nat × List Char) :=
  match value with
  | c0 :: c1 :: rest =>
    if commaOrPeriod c0 && isDigit c1 then
      let ds := (c1 :: rest).takeWhile isDigit
      let used := ds.take 9
      some (atoiDigits used * 10 ^ (9 - used.length), (c1 :: rest).dropWhile isDigit)
    else none
  | _ => none

/-- The fields collected by `parse`. -/
structure Fields where
  year : Nat := 0
  month : Nat := 0
  day : Nat := 0
  hour : Nat := 0
  min : Nat := 0
  sec : Nat := 0
  nsec : Nat := 0
  /-- Zone offset in seconds east of UTC; `some 0` also stands for the literal zone Z. -/
  zoneOffset : Option Int := none
  deriving DecidableEq, Repr

/-- The first standard element of the rest of the layout (`nextStdChunk`). -/
def nextStd : List Std → Option Std
  | [] => none
  | .lit _ :: es => nextStd es
  | e :: _ => some e

/-- One iteration of the `parse` loop for a standard element: the consumed input and the
updated fields, or `none` on a syntax or range error. -/
def step (e : Std) (rest : List Std) (value : List Char) (f : Fields) :
    Option (List Char × Fields) :=
  match e with
  | .lit text =>
    if text.isPrefixOf value then some (value.drop text.length, f) else none
  | .stdLongYear =>
    match value with
    | a :: b :: c :: d :: value2 =>
      if isDigit a && isDigit b && isDigit c && isDigit d then
        some (value2, { f with year := atoiDigits [a, b, c, d] })
      else none
    | _ => none
  | .stdZeroMonth =>
    match getnum value true with
    | some (month, value2) =>
      if month ≤ 0 || 12 < month then none else some (value2, { f with month := month })
    | none => none
  | .stdZeroDay =>
    match getnum value true with
    | some (day, value2) => some (value2, { f with day := day })
    | none => none
  | .stdHour =>
    match getnum value false with
    | some (hour, value2) => if 24 ≤ hour then none else some (value2, { f with hour := hour })
    | none => none
  | .stdZeroMinute =>
    match getnum value true with
    | some (min, value2) => if 60 ≤ min then none else some (value2, { f with min := min })
    | none => none
  | .stdZeroSecond =>
    match getnum value true with
    | some (sec, value2) =>
      if 60 ≤ sec then none
      else if nextStd rest = some .stdFracSecond9 then some (value2, { f with sec := sec })
      else
        match fracSecond value2 with
        | some (nsec, value3) => some (value3, { f with sec := sec, nsec := nsec })
        | none => some (value2, { f with sec := sec })
    | none => none
  | .stdFracSecond9 =>
    match fracSecond value with
    | some (nsec, value2) => some (value2, { f with nsec := nsec })
    | none => some (value, f)
  | .stdISO8601ColonTZ =>
    match value with
    | 'Z' :: value2 => some (value2, { f with zoneOffset := some 0 })
    | sign :: h1 :: h2 :: colon :: m1 :: m2 :: value2 =>
      if colon != ':' then none
      else
        match getnum [h1, h2] true, getnum [m1, m2] true with
        | some (hr, _), some (mm, _) =>
          if 24 < hr || 60 < mm then none
          else if sign == '+' then
            some (value2, { f with zoneOffset := some (((hr * 60 + mm) * 60 : Nat) : Int) })
          else if sign == '-' then
            some (value2, { f with zoneOffset := some (-(((hr * 60 + mm) * 60 : Nat) : Int)) })
          else none
        | _, _ => none
    | _ => none

/-- The `parse` loop: every chunk in turn, then no input may remain (extra text). -/
def parseLoop : List Std → List Char → Fields → Option Fields
  | [], value, f => if value.isEmpty then some f else none
  | e :: rest, value, f =>
    match step e rest value f with
    | some (value2, f2) => parseLoop rest value2 f2
    | none => none

def isLeap (year : Nat) : Bool := year % 4 == 0 && (year % 100 != 0 || year % 400 == 0)

def daysIn (month year : Nat) : Nat :=
  if month == 2 then (if isLeap year then 29 else 28)
  else if month == 4 || month == 6 || month == 9 || month == 11 then 30
  else 31

/-- Days from 0001-01-01 to the first day of `month` in `year` (proleptic Gregorian). -/
def daysBefore (year month : Nat) : Int :=
  let y : Int := (year : Int) - 1
  365 * y + y / 4 - y / 100 + y / 400 +
    (((List.range (month - 1)).map (fun m => daysIn (m + 1) year)).sum : Nat)

/-- The library function `time.Date` on in-range fields in UTC, shifted by the zone offset. -/
def Date (f : Fields) : Time :=
  { sec := (daysBefore f.year f.month + ((f.day : Int) - 1)) * 86400
      + f.hour * 3600 + f.min * 60 + f.sec - f.zoneOffset.getD 0
    nsec := f.nsec }

/-- The library function `parse(layout, value, UTC, local)`: the loop, the validation of the
day of the month, and the conversion to an instant.  With no zone in the input the default
location UTC applies. -/
def parse (layout : List Std) (value : String) : Option Time :=
  match parseLoop layout value.data {} with
  | some f => if f.day < 1 || daysIn f.month f.year < f.day then none else some (Date f)
  | none => none

/-- The library function `time.Parse(layout, value)`. -/
def Parse (layout : List Std) (value : String) : Option Time := parse layout value

/-- The library function `time.ParseInLocation(layout, value, time.UTC)`. -/
def ParseInLocationUTC (layout : List Std) (value : String) : Option Time := parse layout value

/-! Naive timestamp texts, for stating what the parser accepts. -/

/-- The ASCII digit of `d` (for `d` up to 9). -/
def digitChar (d : Nat) : Char := Char.ofNat (48 + d)

/-- Two decimal digits, zero padded. -/
def pad2 (n : Nat) : List Char := [digitChar (n / 10), digitChar (n % 10)]

/-- Four decimal digits, zero padded. -/
def pad4 (n : Nat) : List Char :=
  [digitChar (n / 1000), digitChar (n / 100 % 10), digitChar (n / 10 % 10), digitChar (n % 10)]

/-- The text YYYY-MM-DDTHH:MM:SS, followed by a period and the digits `frac` when `frac` is
not empty. -/
def naiveText (year month day hour min sec : Nat) (frac : List Nat) : String :=
  ⟨pad4 year ++ '-' :: pad2 month ++ '-' :: pad2 day ++ 'T' :: pad2 hour ++ ':' :: pad2 min
    ++ ':' :: pad2 sec ++ (if frac = [] then [] else '.' :: frac.map digitChar)⟩

/-- The nanoseconds denoted by the fraction digits `frac` (at most nine). -/
def fracNanos (frac : List Nat) : Nat :=
  frac.foldl (fun acc d => acc * 10 + d) 0 * 10 ^ (9 - frac.length)

end time

/-- The signature of `json.Unmarshal(data, &v)` at a fixed type of `v`: from the data and the
current value of `v` to the value left in `v` and the error. -/
abbrev Unmarshal (α : Type) := String → α → α × Option LibError

/-- The fallback layouts of `APITime.UnmarshalJSON`, in order. -/
def APITime.layouts : List (List time.Std) := [time.layoutMicro, time.layoutSeconds]

/-- The method `(*APITime).UnmarshalJSON`.  `unmarshalTime` is the library call
`json.Unmarshal(b, &t.Time)` of the last resort, whose error is the only one returned. -/
def APITime.UnmarshalJSON (unmarshalTime : Unmarshal time.Time) (t : APITime) (b : String) :
    APITime × Option LibError :=
  let s := strings.Trim b "\""
  if s = "" then (t, none)
  else
    match time.Parse time.RFC3339Nano s with
    | some tt => ({ t with Time := tt }, none)
    | none =>
      match APITime.layouts.findSome? (fun l => time.ParseInLocationUTC l s) with
      | some tt => ({ t with Time := tt }, none)
      | none =>
        let r := unmarshalTime b t.Time
        ({ t with Time := r.1 }, r.2)

/-! ## client.go: the client handle, requests and the environment -/

/-- The `http.Client` held by the handle; only its overall timeout (seconds) is configured. -/
structure HTTPClient where
  Timeout : Nat
  deriving DecidableEq, Repr

structure Client where
  BaseURL : String
  IdempotencyKey : String
  HTTP : HTTPClient
  deriving DecidableEq, Repr

def New (baseURL idem : String) : Client :=
  let baseURL := if baseURL = "" then "http://127.0.0.1:8000" else baseURL
  { BaseURL := strings.TrimRight baseURL "/"
    IdempotencyKey := idem
    HTTP := { Timeout := 30 } }

/-- A value stored in a request payload of type `map[string]any`: the code stores strings
and ints only. -/
inductive PVal where
  | str (s : String)
  | int (n : Int)
  deriving DecidableEq, Repr

/-- A Go `map[string]V` as an association list with unique keys. -/
abbrev GoMap (V : Type) := List (String × V)

/-- Map lookup `m[k]` with presence. -/
def GoMap.get {V : Type} (m : GoMap V) (k : String) : Option V :=
  match m with
  | [] => none
  | (k2, v) :: rest => if k2 = k then some v else GoMap.get rest k

/-- Map assignment `m[k] = v`. -/
def GoMap.set {V : Type} (m : GoMap V) (k : String) (v : V) : GoMap V :=
  match m with
  | [] => [(k, v)]
  | (k2, v2) :: rest => if k2 = k then (k, v) :: rest else (k2, v2) :: GoMap.set rest k v

abbrev Payload := GoMap PVal

/-- An `http.Request` as built by `doJSON`: method, URL string handed to `http.NewRequest`,
header, and the value whose `json.Marshal` encoding is the body (`none`: no body). -/
structure Request where
  Method : String
  URL : String
  Header : GoMap String
  Body : Option Payload
  deriving DecidableEq, Repr

/-- An HTTP response after `io.ReadAll`: status code and body bytes. -/
structure Response where
  StatusCode : Int
  Body : String
  deriving DecidableEq, Repr

/-- Everything `doJSON` calls outside the repository.
* `marshalErr p`: the error of `json.Marshal(p)`, `none` on success;
* `newRequestErr method url`: the error of `http.NewRequest`, `none` on success;
* `Do sent req`: `c.HTTP.Do(req)` followed by `io.ReadAll(res.Body)`, either of which may
  fail; the outcome may depend on the requests `sent` before (the remote service is
  stateful);
* `unmarshal…`: `json.Unmarshal` at the type of the target. -/
structure Env where
  marshalErr : Payload → Option LibError
  newRequestErr : String → String → Option LibError
  Do : List Request → Request → Except LibError Response
  unmarshalAPIError : Unmarshal APIError
  unmarshalTenantOut : Unmarshal TenantOut
  unmarshalVrfOut : Unmarshal VrfOut
  unmarshalPrefixOut : Unmarshal PrefixOut
  unmarshalPrefixOuts : Unmarshal (Option (List PrefixOut))
  unmarshalNextIPOut : Unmarshal NextIPOut

/-- What a client call leaves behind: the handle `*c`, the requests handed to the transport
so far (oldest first), the value of the result variable, and the returned error. -/
structure Ret (α : Type) where
  c : Client
  sent : List Request
  out : α
  err : Option GoError

/-- The method `(*Client).doJSON`.  `out` is `none` for a nil `out` and `some v` for a
pointer to a variable holding `v`; `dec` is `json.Unmarshal` at the type of that variable.
The result's `out` is the variable after the call. -/
def Client.doJSON {α : Type} (c : Client) (env : Env) (dec : Unmarshal α) (sent : List Request)
    (method path : String) (reqBody : Option Payload) (out : Option α) : Ret (Option α) :=
  let u := c.BaseURL ++ path
  match reqBody.bind env.marshalErr with
  | some err => ⟨c, sent, out, some (.lib err)⟩
  | none =>
    match env.newRequestErr method u with
    | some err => ⟨c, sent, out, some (.lib err)⟩
    | none =>
      let req : Request := { Method := method, URL := u, Header := [], Body := reqBody }
      let req := { req with Header := req.Header.set "Content-Type" "application/json" }
      let req :=
        if c.IdempotencyKey ≠ "" then
          { req with Header := req.Header.set "Idempotency-Key" c.IdempotencyKey }
        else req
      match env.Do sent req with
      | .error err => ⟨c, sent ++ [req], out, some (.lib err)⟩
      | .ok res =>
        if res.StatusCode ≥ 200 ∧ res.StatusCode < 300 then
          match out with
          | some o =>
            if res.Body.length > 0 then
              match dec res.Body o with
              | (o2, some err) =>
                ⟨c, sent ++ [req], some o2,
                  some (.wrapf ("decode " ++ method ++ " " ++ path ++ ": ") (.lib err)
                    ("\nbody: " ++ res.Body))⟩
              | (o2, none) => ⟨c, sent ++ [req], some o2, none⟩
            else ⟨c, sent ++ [req], out, none⟩
          | none => ⟨c, sent ++ [req], out, none⟩
        else
          match env.unmarshalAPIError res.Body default with
          | (apErr, err) =>
            if err.isNone ∧ (apErr.Err ≠ "" ∨ apErr.Message ≠ "") then
              ⟨c, sent ++ [req], out, some (.api apErr)⟩
            else
              ⟨c, sent ++ [req], out,
                some (.new ("http " ++ method ++ " " ++ path ++ ": " ++ toString res.StatusCode
                  ++ "\nbody: " ++ res.Body))⟩

/-- The tail of every wrapper: `return out, err` with `out` the local result variable. -/
def Ret.deref {α : Type} (r : Ret (Option α)) (out : α) : Ret α :=
  { c := r.c, sent := r.sent, out := r.out.getD out, err := r.err }

def Client.CreateTenant (c : Client) (env : Env) (sent : List Request) (name : String) :
    Ret TenantOut :=
  let out : TenantOut := default
  (c.doJSON env env.unmarshalTenantOut sent "POST" "/v1/tenants"
    (some [("name", .str name)]) (some out)).deref out

def Client.CreateVRF (c : Client) (env : Env) (sent : List Request) (tenantID name : String)
    (rd : Option String) : Ret VrfOut :=
  let payload : Payload := [("tenant_id", .str tenantID), ("name", .str name)]
  let payload :=
    match rd with
    | some r => if r ≠ "" then payload.set "rd" (.str r) else payload
    | none => payload
  let out : VrfOut := default
  (c.doJSON env env.unmarshalVrfOut sent "POST" "/v1/vrfs" (some payload) (some out)).deref out

def Client.CreatePrefix (c : Client) (env : Env) (sent : List Request)
    (vrfID cidr status desc : String) : Ret PrefixOut :=
  let payload : Payload :=
    [("vrf_id", .str vrfID), ("cidr", .str cidr), ("status", .str status),
     ("description", .str desc)]
  let out : PrefixOut := default
  (c.doJSON env env.unmarshalPrefixOut sent "POST" "/v1/prefixes" (some payload)
    (some out)).deref out

def Client.CarveChildren (c : Client) (env : Env) (sent : List Request) (prefixID : String)
    (mask count : Int) : Ret (Option (List PrefixOut)) :=
  let out : Option (List PrefixOut) := none
  (c.doJSON env env.unmarshalPrefixOuts sent "POST" ("/v1/prefixes/" ++ prefixID ++ "/children")
    (some [("mask", .int mask), ("count", .int count), ("strategy", .str "first-fit")])
    (some out)).deref out

def Client.NextIP (c : Client) (env : Env) (sent : List Request) (prefixID : String) :
    Ret NextIPOut :=
  let out : NextIPOut := default
  (c.doJSON env env.unmarshalNextIPOut sent "POST" ("/v1/prefixes/" ++ prefixID ++ "/ips/next")
    none (some out)).deref out

/-! ### The five operations, uniformly -/

/-- The five remote operations with their arguments. -/
inductive Op where
  | CreateTenant (name : String)
  | CreateVRF (tenantID name : String) (rd : Option String)
  | CreatePrefix (vrfID cidr status desc : String)
  | CarveChildren (prefixID : String) (mask count : Int)
  | NextIP (prefixID : String)
  deriving DecidableEq, Repr

/-- The result type of an operation. -/
def Op.Out : Op → Type
  | .CreateTenant _ => TenantOut
  | .CreateVRF _ _ _ => VrfOut
  | .CreatePrefix _ _ _ _ => PrefixOut
  | .CarveChildren _ _ _ => Option (List PrefixOut)
  | .NextIP _ => NextIPOut

/-- The zero value of the result type. -/
def Op.zero : (o : Op) → o.Out
  | .CreateTenant _ => (default : TenantOut)
  | .CreateVRF _ _ _ => (default : VrfOut)
  | .CreatePrefix _ _ _ _ => (default : PrefixOut)
  | .CarveChildren _ _ _ => (none : Option (List PrefixOut))
  | .NextIP _ => (default : NextIPOut)

/-- The decoder `json.Unmarshal` at the result type of the operation. -/
def Op.unmarshal (env : Env) : (o : Op) → Unmarshal o.Out
  | .CreateTenant _ => env.unmarshalTenantOut
  | .CreateVRF _ _ _ => env.unmarshalVrfOut
  | .CreatePrefix _ _ _ _ => env.unmarshalPrefixOut
  | .CarveChildren _ _ _ => env.unmarshalPrefixOuts
  | .NextIP _ => env.unmarshalNextIPOut

/-- The call of the client method for the operation. -/
def Op.run (c : Client) (env : Env) (sent : List Request) : (o : Op) → Ret o.Out
  | .CreateTenant name => c.CreateTenant env sent name
  | .CreateVRF tenantID name rd => c.CreateVRF env sent tenantID name rd
  | .CreatePrefix vrfID cidr status desc => c.CreatePrefix env sent vrfID cidr status desc
  | .CarveChildren prefixID mask count => c.CarveChildren env sent prefixID mask count
  | .NextIP prefixID => c.NextIP env sent prefixID

/-- The path of the operation in the remote HTTP contract (the table of external
interfaces), with the prefix id substituted. -/
def Op.documentedPath : Op → String
  | .CreateTenant _ => "/v1/tenants"
  | .CreateVRF _ _ _ => "/v1/vrfs"
  | .CreatePrefix _ _ _ _ => "/v1/prefixes"
  | .CarveChildren prefixID _ _ => "/v1/prefixes/" ++ prefixID ++ "/children"
  | .NextIP prefixID => "/v1/prefixes/" ++ prefixID ++ "/ips/next"

/-! ## cmd: command handlers -/

namespace cmd

/-- The persistent flags of root.go. -/
structure RootFlags where
  baseURL : String
  idemKey : String
  deriving DecidableEq, Repr

/-- What a handler leaves behind: its flag variables, the requests handed to the transport,
and the returned error. -/
structure CmdRet (φ : Type) where
  flags : φ
  sent : List Request
  err : Option GoError

/-- The flag variables of prefix_carve.go. -/
structure CarveFlags where
  cPrefixID : String
  cMask : Int
  cCount : Int
  deriving DecidableEq, Repr

/-- The handler `carveCmd.RunE`. -/
def carveRunE (env : Env) (root : RootFlags) (f : CarveFlags) (sent : List Request) :
    CmdRet CarveFlags :=
  if f.cPrefixID = "" then ⟨f, sent, some (.new "--prefix-id is required")⟩
  else
    let f := if f.cMask = 0 then { f with cMask := 28 } else f
    let f := if f.cCount ≤ 0 then { f with cCount := 1 } else f
    let cl := New root.baseURL root.idemKey
    let r := cl.CarveChildren env sent f.cPrefixID f.cMask f.cCount
    match r.err with
    | some err => ⟨f, r.sent, some err⟩
    | none => ⟨f, r.sent, none⟩

/-- The flag variables of vrf_create.go. -/
structure VrfFlags where
  vrfTenantID : String
  vrfName : String
  vrfRD : String
  deriving DecidableEq, Repr

/-- The handler `vrfCreateCmd.RunE`. -/
def vrfCreateRunE (env : Env) (root : RootFlags) (f : VrfFlags) (sent : List Request) :
    CmdRet VrfFlags :=
  if f.vrfTenantID = "" ∨ f.vrfName = "" then
    ⟨f, sent, some (.new "--tenant-id and --name are required")⟩
  else
    let c := New root.baseURL root.idemKey
    let rdPtr : Option String := if f.vrfRD ≠ "" then some f.vrfRD else none
    let r := c.CreateVRF env sent f.vrfTenantID f.vrfName rdPtr
    match r.err with
    | some err => ⟨f, r.sent, some err⟩
    | none => ⟨f, r.sent, none⟩

/-- The flag variables of seed.go. -/
structure SeedFlags where
  seedTenant : String
  seedVRF : String
  seedRD : String
  seedCIDR : String
  seedStatus : String
  seedMask : Int
  seedCount : Int
  deriving DecidableEq, Repr

/-- The flag defaults registered in `init` of seed.go. -/
def seedDefaults : SeedFlags :=
  { seedTenant := "DemoTenant", seedVRF := "demo-vrf", seedRD := "65000:1",
    seedCIDR := "10.0.0.0/24", seedStatus := "active", seedMask := 28, seedCount := 2 }

/-- The target of the next-ip call of the seed workflow: `target := p.ID`, replaced by
`kids[0].ID` when `len(kids) > 0`. -/
def seedTarget (rootID : String) (kids : Option (List PrefixOut)) : String :=
  match kids with
  | some (k :: _) => k.ID
  | _ => rootID

/-- The handler `seedCmd.RunE`. -/
def seedRunE (env : Env) (root : RootFlags) (f : SeedFlags) (sent : List Request) :
    CmdRet SeedFlags :=
  let cl := New root.baseURL root.idemKey
  let t := cl.CreateTenant env sent f.seedTenant
  match t.err with
  | some err => ⟨f, t.sent, some (.wrapf "create tenant: " err "")⟩
  | none =>
    let rdPtr : Option String := if f.seedRD ≠ "" then some f.seedRD else none
    let v := t.c.CreateVRF env t.sent t.out.ID f.seedVRF rdPtr
    match v.err with
    | some err => ⟨f, v.sent, some (.wrapf "create vrf: " err "")⟩
    | none =>
      let p := v.c.CreatePrefix env v.sent v.out.ID f.seedCIDR f.seedStatus "seed root"
      match p.err with
      | some err => ⟨f, p.sent, some (.wrapf "create prefix: " err "")⟩
      | none =>
        let kids := p.c.CarveChildren env p.sent p.out.ID f.seedMask f.seedCount
        match kids.err with
        | some err => ⟨f, kids.sent, some (.wrapf "carve children: " err "")⟩
        | none =>
          let target := seedTarget p.out.ID kids.out
          let ip := kids.c.NextIP env kids.sent target
          match ip.err with
          | some err => ⟨f, ip.sent, some (.wrapf "next ip: " err "")⟩
          | none => ⟨f, ip.sent, none⟩

end cmd

/-! ## A reference model of `encoding/json` decoding

`json.Unmarshal` first validates the whole input (`checkValid`), leaving the target untouched
on a syntax error, then stores value by value.  A type mismatch is recorded (`saveError`, the
first one wins) and decoding goes on; an error returned by an `UnmarshalJSON` method aborts
decoding at once, leaving what was stored before.  The texts of library errors are
representative only. -/

namespace json

/-- Scalar JSON values. -/
inductive Lit where
  | null
  | bool (b : Bool)
  | num
  | str (val : String)
  deriving Repr

/-- A parsed JSON value together with its source text `raw`. -/
inductive Node where
  | lit (raw : List Char) (v : Lit)
  | arr (raw : List Char) (xs : List Node)
  | obj (raw : List Char) (kvs : List (String × Node))
  deriving Repr

def Node.raw : Node → List Char
  | .lit raw _ => raw
  | .arr raw _ => raw
  | .obj raw _ => raw

/-- The `Value` text of an `UnmarshalTypeError` for this node. -/
def Node.kindName : Node → String
  | .lit _ .null => "null"
  | .lit _ (.bool _) => "bool"
  | .lit _ .num => "number"
  | .lit _ (.str _) => "string"
  | .arr _ _ => "array"
  | .obj _ _ => "object"

def isSpace (c : Char) : Bool := c == ' ' || c == '\t' || c == '\r' || c == '\n'

def skipSpace (s : List Char) : List Char := s.dropWhile isSpace

def hexVal (c : Char) : Option Nat :=
  if '0' ≤ c ∧ c ≤ '9' then some (c.toNat - 48)
  else if 'a' ≤ c ∧ c ≤ 'f' then some (c.toNat - 87)
  else if 'A' ≤ c ∧ c ≤ 'F' then some (c.toNat - 55)
  else none

def isHex (c : Char) : Bool := (hexVal c).isSome

/-- Scans a string literal after its opening quote: the content (escapes unresolved) and the
input after the closing quote. -/
def scanString : List Char → Option (List Char × List Char)
  | [] => none
  | c :: rest =>
    if c == '"' then some ([], rest)
    else if c == '\\' then
      match rest with
      | [] => none
      | e :: rest2 =>
        if e == 'u' then
          match rest2 with
          | h1 :: h2 :: h3 :: h4 :: rest3 =>
            if isHex h1 && isHex h2 && isHex h3 && isHex h4 then
              (scanString rest3).map (fun r => (c :: e :: h1 :: h2 :: h3 :: h4 :: r.1, r.2))
            else none
          | _ => none
        else if e == '"' || e == '\\' || e == '/' || e == 'b' || e == 'f' || e == 'n'
            || e == 'r' || e == 't' then
          (scanString rest2).map (fun r => (c :: e :: r.1, r.2))
        else none
    else if c.toNat < 0x20 then none
    else (scanString rest).map (fun r => (c :: r.1, r.2))

/-- The value of four hex digits. -/
def hex4 (h1 h2 h3 h4 : Char) : Nat :=
  (((hexVal h1).getD 0 * 16 + (hexVal h2).getD 0) * 16 + (hexVal h3).getD 0) * 16
    + (hexVal h4).getD 0

/-- The rune of a `\u` escape whose code unit is `rr`, given the input after it: a valid
surrogate pair is combined (and its second escape consumed), a lone surrogate becomes
U+FFFD. -/
def escapeRune (rr : Nat) (rest : List Char) : Char × List Char :=
  if 0xd800 ≤ rr ∧ rr < 0xe000 then
    match rest with
    | b :: u :: h1 :: h2 :: h3 :: h4 :: rest2 =>
      if b == '\\' && u == 'u' && isHex h1 && isHex h2 && isHex h3 && isHex h4 then
        let rr1 := hex4 h1 h2 h3 h4
        if rr < 0xdc00 ∧ 0xdc00 ≤ rr1 ∧ rr1 < 0xe000 then
          (Char.ofNat ((rr - 0xd800) * 1024 + (rr1 - 0xdc00) + 0x10000), rest2)
        else (Char.ofNat 0xfffd, rest)
      else (Char.ofNat 0xfffd, rest)
    | _ => (Char.ofNat 0xfffd, rest)
  else (Char.ofNat rr, rest)

/-- The library function `unquote` on a scanned string content. -/
def unquote : Nat → List Char → List Char
  | 0, _ => []
  | _ + 1, [] => []
  | fuel + 1, c :: rest =>
    if c == '\\' then
      match rest with
      | [] => []
      | e :: rest2 =>
        if e == 'u' then
          match rest2 with
          | h1 :: h2 :: h3 :: h4 :: rest3 =>
            let r := escapeRune (hex4 h1 h2 h3 h4) rest3
            r.1 :: unquote fuel r.2
          | _ => []
        else
          let ch :=
            if e == 'b' then Char.ofNat 8
            else if e == 'f' then Char.ofNat 12
            else if e == 'n' then '\n'
            else if e == 'r' then '\r'
            else if e == 't' then '\t'
            else e
          ch :: unquote fuel rest2
    else c :: unquote fuel rest

def isDigit (c : Char) : Bool := decide ('0' ≤ c) && decide (c ≤ '9')

/-- A run of one or more digits at the head of the input. -/
def scanDigits (s : List Char) : Option (List Char × List Char) :=
  match s.takeWhile isDigit with
  | [] => none
  | ds => some (ds, s.dropWhile isDigit)

/-- Scans a number literal: sign, integer part without superfluous leading zero, optional
fraction, optional exponent. -/
def scanNumber (s : List Char) : Option (List Char × List Char) :=
  let (sign, s1) :=
    match s with
    | c :: r => if c == '-' then ([c], r) else ([], s)
    | [] => ([], s)
  let intPart : Option (List Char × List Char) :=
    match s1 with
    | c :: r => if c == '0' then some ([c], r) else scanDigits s1
    | [] => none
  match intPart with
  | none => none
  | some (ds, s2) =>
    let fracPart : Option (List Char × List Char) :=
      match s2 with
      | c :: r =>
        if c == '.' then (scanDigits r).map (fun x => (c :: x.1, x.2)) else some ([], s2)
      | [] => some ([], s2)
    match fracPart with
    | none => none
    | some (fs, s3) =>
      let expPart : Option (List Char × List Char) :=
        match s3 with
        | c :: r =>
          if c == 'e' || c == 'E' then
            match r with
            | g :: r2 =>
              if g == '+' || g == '-' then (scanDigits r2).map (fun x => (c :: g :: x.1, x.2))
              else (scanDigits r).map (fun x => (c :: x.1, x.2))
            | [] => none
          else some ([], s3)
        | [] => some ([], s3)
      match expPart with
      | none => none
      | some (es, s4) => some (sign ++ ds ++ fs ++ es, s4)

/-- The nesting limit of the scanner. -/
def maxNestingDepth : Nat := 10000

/-- The elements of an array from its first value on, up to the closing bracket. -/
def parseElems (pv : List Char → Option (Node × List Char)) :
    Nat → List Char → List Node → Option (List Node × List Char)
  | 0, _, _ => none
  | fuel + 1, s, acc =>
    match pv s with
    | none => none
    | some (n, rest) =>
      match skipSpace rest with
      | c :: r =>
        if c == ',' then parseElems pv fuel (skipSpace r) (acc ++ [n])
        else if c == ']' then some (acc ++ [n], r)
        else none
      | [] => none

/-- The members of an object from its first key on, up to the closing brace. -/
def parseMembers (pv : List Char → Option (Node × List Char)) :
    Nat → List Char → List (String × Node) → Option (List (String × Node) × List Char)
  | 0, _, _ => none
  | fuel + 1, s, acc =>
    match s with
    | q :: s1 =>
      if q == '"' then
        match scanString s1 with
        | none => none
        | some (content, s2) =>
          match skipSpace s2 with
          | colon :: s3 =>
            if colon == ':' then
              match pv (skipSpace s3) with
              | none => none
              | some (n, rest) =>
                let key : String := ⟨unquote (content.length + 1) content⟩
                match skipSpace rest with
                | c :: r =>
                  if c == ',' then parseMembers pv fuel (skipSpace r) (acc ++ [(key, n)])
                  else if c == '}' then some (acc ++ [(key, n)], r)
                  else none
                | [] => none
            else none
          | [] => none
      else none
    | [] => none

/-- One JSON value at the head of the input (no leading space), `depth` containers deep. -/
def parseValue : Nat → Nat → List Char → Option (Node × List Char)
  | 0, _, _ => none
  | fuel + 1, depth, s =>
    let done (r : List Char) : List Char := s.take (s.length - r.length)
    match s with
    | [] => none
    | c :: s1 =>
      if c == '{' then
        if depth ≥ maxNestingDepth then none
        else
          match skipSpace s1 with
          | c2 :: r =>
            if c2 == '}' then some (.obj (done r) [], r)
            else
              match parseMembers (parseValue fuel (depth + 1)) fuel (c2 :: r) [] with
              | some (kvs, r2) => some (.obj (done r2) kvs, r2)
              | none => none
          | [] => none
      else if c == '[' then
        if depth ≥ maxNestingDepth then none
        else
          match skipSpace s1 with
          | c2 :: r =>
            if c2 == ']' then some (.arr (done r) [], r)
            else
              match parseElems (parseValue fuel (depth + 1)) fuel (c2 :: r) [] with
              | some (xs, r2) => some (.arr (done r2) xs, r2)
              | none => none
          | [] => none
      else if c == '"' then
        match scanString s1 with
        | some (content, r) =>
          some (.lit (done r) (.str ⟨unquote (content.length + 1) content⟩), r)
        | none => none
      else if c == 't' then
        if "true".data.isPrefixOf s then some (.lit "true".data (.bool true), s.drop 4) else none
      else if c == 'f' then
        if "false".data.isPrefixOf s then some (.lit "false".data (.bool false), s.drop 5)
        else none
      else if c == 'n' then
        if "null".data.isPrefixOf s then some (.lit "null".data .null, s.drop 4) else none
      else
        match scanNumber s with
        | some (raw, r) => some (.lit raw .num, r)
        | none => none

/-- The whole input as one JSON value surrounded by optional space (`checkValid`). -/
def parse (data : String) : Option Node :=
  let s := skipSpace data.data
  match parseValue (s.length + 1) 0 s with
  | some (n, rest) => if (skipSpace rest).isEmpty then some n else none
  | none => none

/-- The first error recorded by `saveError`. -/
def saveError (saved : Option LibError) (err : LibError) : Option LibError :=
  match saved with
  | some e => some e
  | none => some err

/-- An `UnmarshalTypeError`. -/
def typeError (n : Node) (target : String) : LibError :=
  ⟨"json: cannot unmarshal " ++ n.kindName ++ " into Go value of type " ++ target⟩

/-- The state of a decoding step: the value stored so far, the saved (deferred) error, and
the error that aborts decoding. -/
structure Dec (α : Type) where
  val : α
  saved : Option LibError
  hard : Option LibError

/-- Splits a scanned number literal into its digits (integer and fraction part joined, sign
dropped) and its decimal exponent, so that the value is `digits * 10 ^ exponent`. -/
def numberParts (raw : List Char) : List Char × Int :=
  let body := raw.dropWhile (fun c => c == '-')
  let mant := body.takeWhile (fun c => !(c == 'e' || c == 'E'))
  let expo := (body.dropWhile (fun c => !(c == 'e' || c == 'E'))).drop 1
  let intDs := mant.takeWhile isDigit
  let fracDs := (mant.dropWhile isDigit).drop 1
  let expNeg := expo.head? == some '-'
  let expDs := expo.dropWhile (fun c => c == '+' || c == '-')
  let e : Int := (expDs.foldl (fun acc c => acc * 10 + (c.toNat - 48)) 0 : Nat)
  (intDs ++ fracDs, (if expNeg then -e else e) - (fracDs.length : Int))

/-- Whether `strconv.ParseFloat(raw, 64)` reports a range error: the value rounds to
infinity, i.e. its magnitude is at least `2^1024 - 2^970`. -/
def float64Overflows (raw : List Char) : Bool :=
  let (ds, e) := numberParts raw
  let ds := ds.dropWhile (fun c => c == '0')
  let m : Nat := ds.foldl (fun acc c => acc * 10 + (c.toNat - 48)) 0
  let mag : Int := (ds.length : Int) + e
  if ds.isEmpty then false
  else if mag ≤ 308 then false
  else if 310 ≤ mag then true
  else
    let bound : Nat := 2 ^ 1024 - 2 ^ 970
    if 0 ≤ e then decide (bound ≤ m * 10 ^ e.toNat) else decide (bound * 10 ^ (-e).toNat ≤ m)

mutual
/-- The Go value of type `any` stored for a JSON value (`valueInterface`). -/
def toAny : Node → JValue
  | .lit _ .null => .null
  | .lit _ (.bool b) => .bool b
  | .lit raw .num => if float64Overflows raw then .null else .num ⟨raw⟩
  | .lit _ (.str v) => .str v
  | .arr _ xs => .arr (toAnyList xs)
  | .obj _ kvs => .obj (toAnyMembers kvs [])
def toAnyList : List Node → List JValue
  | [] => []
  | x :: xs => toAny x :: toAnyList xs
def toAnyMembers : List (String × Node) → GoMap JValue → GoMap JValue
  | [], m => m
  | (k, n) :: kvs, m => toAnyMembers kvs (m.set k (toAny n))
end

mutual
/-- The first number of a JSON value, in source order, that does not fit a `float64`. -/
def firstRangeError : Node → Option LibError
  | .lit raw .num =>
    if float64Overflows raw then
      some ⟨"json: cannot unmarshal number " ++ String.mk raw ++
        " into Go value of type float64"⟩
    else none
  | .lit _ _ => none
  | .arr _ xs => firstRangeErrorList xs
  | .obj _ kvs => firstRangeErrorMembers kvs
def firstRangeErrorList : List Node → Option LibError
  | [] => none
  | x :: xs => (firstRangeError x).orElse (fun _ => firstRangeErrorList xs)
def firstRangeErrorMembers : List (String × Node) → Option LibError
  | [] => none
  | (_, n) :: kvs => (firstRangeError n).orElse (fun _ => firstRangeErrorMembers kvs)
end

/-- The fold of a rune used to match object keys against field names regardless of case:
the smallest rune of its case orbit.  Only the orbits that meet ASCII are needed, the
field names being ASCII. -/
def foldRune (c : Char) : Char :=
  if 'a' ≤ c ∧ c ≤ 'z' then Char.ofNat (c.toNat - 32)
  else if c = Char.ofNat 0x212A then 'K'
  else if c = Char.ofNat 0x17F then 'S'
  else c

/-- The struct field addressed by an object key: an exact match is preferred, else the
first field equal to the key under case folding. -/
def findField (names : List String) (key : String) : Option String :=
  match names.find? (fun n => n == key) with
  | some n => some n
  | none => names.find? (fun n => n.data.map foldRune == key.data.map foldRune)

/-- Stores a JSON value into a `string`. -/
def storeString (n : Node) (cur : String) (saved : Option LibError) : String × Option LibError :=
  match n with
  | .lit _ (.str v) => (v, saved)
  | .lit _ .null => (cur, saved)
  | n => (cur, saveError saved (typeError n "string"))

/-- Stores a JSON value into a `*string`: null sets nil, anything else allocates when nil and
stores into the pointee. -/
def storeStringPtr (n : Node) (cur : Option String) (saved : Option LibError) :
    Option String × Option LibError :=
  match n with
  | .lit _ .null => (none, saved)
  | n =>
    let r := storeString n (cur.getD "") saved
    (some r.1, r.2)

/-- Stores a JSON value into a `map[string]interface{}`. -/
def storeAnyMap (n : Node) (cur : Option (GoMap JValue)) (saved : Option LibError) :
    Option (GoMap JValue) × Option LibError :=
  match n with
  | .lit _ .null => (none, saved)
  | .obj _ kvs =>
    (some (toAnyMembers kvs (cur.getD [])),
      match saved with
      | some e => some e
      | none => firstRangeErrorMembers kvs)
  | n => (cur, saveError saved (typeError n "map[string]interface {}"))

/-- Stores a JSON value into an `APITime`: the type implements `Unmarshaler`, so its method
receives the source text of the value, whatever its kind; its error aborts decoding. -/
def storeAPITime (unmarshalTime : Unmarshal time.Time) (n : Node) (cur : APITime)
    (saved : Option LibError) : Dec APITime :=
  let r := APITime.UnmarshalJSON unmarshalTime cur ⟨n.raw⟩
  ⟨r.1, saved, r.2⟩

/-- Stores the members of an object into a struct, member by member in source order; keys
that address no field are skipped. -/
def storeMembers {S : Type} (names : List String)
    (field : String → Node → S → Option LibError → Dec S) :
    List (String × Node) → S → Option LibError → Dec S
  | [], cur, saved => ⟨cur, saved, none⟩
  | (k, n) :: kvs, cur, saved =>
    match findField names k with
    | none => storeMembers names field kvs cur saved
    | some name =>
      let r := field name n cur saved
      match r.hard with
      | some _ => r
      | none => storeMembers names field kvs r.val r.saved

/-- Stores a JSON value into a struct. -/
def storeStruct {S : Type} (tyName : String) (names : List String)
    (field : String → Node → S → Option LibError → Dec S) (n : Node) (cur : S)
    (saved : Option LibError) : Dec S :=
  match n with
  | .obj _ kvs => storeMembers names field kvs cur saved
  | .lit _ .null => ⟨cur, saved, none⟩
  | n => ⟨cur, saveError saved (typeError n tyName), none⟩

/-- The call `json.Unmarshal(data, &v)`: validation, then the store, whose aborting error takes
precedence over the saved one. -/
def unmarshalWith {α : Type} (store : Node → α → Option LibError → Dec α) : Unmarshal α :=
  fun data cur =>
    match parse data with
    | none => (cur, some ⟨"json: syntax error"⟩)
    | some n =>
      let r := store n cur none
      (r.val, match r.hard with
              | some e => some e
              | none => r.saved)

def storeAPIError : Node → APIError → Option LibError → Dec APIError :=
  storeStruct "client.APIError" ["error", "message", "details"] (fun name n cur saved =>
    if name = "error" then
      let r := storeString n cur.Err saved
      ⟨{ cur with Err := r.1 }, r.2, none⟩
    else if name = "message" then
      let r := storeString n cur.Message saved
      ⟨{ cur with Message := r.1 }, r.2, none⟩
    else
      let r := storeAnyMap n cur.Details saved
      ⟨{ cur with Details := r.1 }, r.2, none⟩)

def storeTenantOut (unmarshalTime : Unmarshal time.Time) :
    Node → TenantOut → Option LibError → Dec TenantOut :=
  storeStruct "client.TenantOut" ["id", "name", "created_at"] (fun name n cur saved =>
    if name = "id" then
      let r := storeString n cur.ID saved
      ⟨{ cur with ID := r.1 }, r.2, none⟩
    else if name = "name" then
      let r := storeString n cur.Name saved
      ⟨{ cur with Name := r.1 }, r.2, none⟩
    else
      let r := storeAPITime unmarshalTime n cur.CreatedAt saved
      ⟨{ cur with CreatedAt := r.val }, r.saved, r.hard⟩)

def storeVrfOut (unmarshalTime : Unmarshal time.Time) :
    Node → VrfOut → Option LibError → Dec VrfOut :=
  storeStruct "client.VrfOut" ["id", "tenant_id", "name", "rd", "created_at"]
    (fun name n cur saved =>
      if name = "id" then
        let r := storeString n cur.ID saved
        ⟨{ cur with ID := r.1 }, r.2, none⟩
      else if name = "tenant_id" then
        let r := storeString n cur.TenantID saved
        ⟨{ cur with TenantID := r.1 }, r.2, none⟩
      else if name = "name" then
        let r := storeString n cur.Name saved
        ⟨{ cur with Name := r.1 }, r.2, none⟩
      else if name = "rd" then
        let r := storeStringPtr n cur.RD saved
        ⟨{ cur with RD := r.1 }, r.2, none⟩
      else
        let r := storeAPITime unmarshalTime n cur.CreatedAt saved
        ⟨{ cur with CreatedAt := r.val }, r.saved, r.hard⟩)

def storePrefixOut (unmarshalTime : Unmarshal time.Time) :
    Node → PrefixOut → Option LibError → Dec PrefixOut :=
  storeStruct "client.PrefixOut"
    ["id", "vrf_id", "cidr", "status", "description", "parent_id", "created_at"]
    (fun name n cur saved =>
      if name = "id" then
        let r := storeString n cur.ID saved
        ⟨{ cur with ID := r.1 }, r.2, none⟩
      else if name = "vrf_id" then
        let r := storeString n cur.VRFID saved
        ⟨{ cur with VRFID := r.1 }, r.2, none⟩
      else if name = "cidr" then
        let r := storeString n cur.CIDR saved
        ⟨{ cur with CIDR := r.1 }, r.2, none⟩
      else if name = "status" then
        let r := storeString n cur.Status saved
        ⟨{ cur with Status := r.1 }, r.2, none⟩
      else if name = "description" then
        let r := storeString n cur.Desc saved
        ⟨{ cur with Desc := r.1 }, r.2, none⟩
      else if name = "parent_id" then
        let r := storeStringPtr n cur.ParentID saved
        ⟨{ cur with ParentID := r.1 }, r.2, none⟩
      else
        let r := storeAPITime unmarshalTime n cur.CreatedAt saved
        ⟨{ cur with CreatedAt := r.val }, r.saved, r.hard⟩)

def storeNextIPOut : Node → NextIPOut → Option LibError → Dec NextIPOut :=
  storeStruct "client.NextIPOut" ["id", "address"] (fun name n cur saved =>
    if name = "id" then
      let r := storeString n cur.ID saved
      ⟨{ cur with ID := r.1 }, r.2, none⟩
    else
      let r := storeString n cur.Address saved
      ⟨{ cur with Address := r.1 }, r.2, none⟩)

/-- Stores the elements of an array into a slice of structs: element `i` is stored into the
existing element `i` or into a fresh zero element; when decoding is aborted the slice keeps
what it holds at that point. -/
def storeElems {S : Type} [Inhabited S] (store : Node → S → Option LibError → Dec S) :
    List Node → List S → Option LibError → Dec (List S)
  | [], _, saved => ⟨[], saved, none⟩
  | x :: xs, old, saved =>
    let r := store x (old.headD default) saved
    match r.hard with
    | some e => ⟨r.val :: old.tail, r.saved, some e⟩
    | none =>
      let rs := storeElems store xs old.tail r.saved
      ⟨r.val :: rs.val, rs.saved, rs.hard⟩

/-- Stores a JSON value into a `[]PrefixOut`. -/
def storePrefixOuts (unmarshalTime : Unmarshal time.Time) (n : Node)
    (cur : Option (List PrefixOut)) (saved : Option LibError) : Dec (Option (List PrefixOut)) :=
  match n with
  | .lit _ .null => ⟨none, saved, none⟩
  | .arr _ xs =>
    let r := storeElems (storePrefixOut unmarshalTime) xs (cur.getD []) saved
    ⟨some r.val, r.saved, r.hard⟩
  | n => ⟨cur, saveError saved (typeError n "[]client.PrefixOut"), none⟩

/-- The method `(*time.Time).UnmarshalJSON` on the source text of a JSON value. -/
def timeUnmarshalJSON (data : List Char) (t : time.Time) : time.Time × Option LibError :=
  if data = "null".data then (t, none)
  else if data.length < 2 || data.head? != some '"' || data.getLast? != some '"' then
    (t, some ⟨"Time.UnmarshalJSON: input is not a JSON string"⟩)
  else
    match time.Parse time.RFC3339 ⟨(data.drop 1).dropLast⟩ with
    | some tt => (tt, none)
    | none => (default, some ⟨"parsing time: cannot parse as RFC 3339"⟩)

/-- The call `json.Unmarshal(b, &t)` for `t` of type `time.Time`. -/
def unmarshalTime : Unmarshal time.Time :=
  fun data cur =>
    match parse data with
    | none => (cur, some ⟨"json: syntax error"⟩)
    | some n => timeUnmarshalJSON n.raw cur

end json

/-- The reference environment: `encoding/json` decoding as modelled above, `json.Marshal`
succeeding (it cannot fail on maps of strings and ints), `http.NewRequest` succeeding, and
the given transport. -/
def goEnv (transport : List Request → Request → Except LibError Response) : Env :=
  { marshalErr := fun _ => none
    newRequestErr := fun _ _ => none
    Do := transport
    unmarshalAPIError := json.unmarshalWith json.storeAPIError
    unmarshalTenantOut := json.unmarshalWith (json.storeTenantOut json.unmarshalTime)
    unmarshalVrfOut := json.unmarshalWith (json.storeVrfOut json.unmarshalTime)
    unmarshalPrefixOut := json.unmarshalWith (json.storePrefixOut json.unmarshalTime)
    unmarshalPrefixOuts := json.unmarshalWith (json.storePrefixOuts json.unmarshalTime)
    unmarshalNextIPOut := json.unmarshalWith json.storeNextIPOut }

/-- A remote service that answers every request with the same status and body. -/
def fixedServer (status : Int) (body : String) : List Request → Request → Except LibError Response :=
  fun _ _ => .ok ⟨status, body⟩


/-- A remote service that answers the n-th request it receives with the n-th response of the
script, and refuses the connection once the script is exhausted. -/
def scriptedServer (script : List Response) :
    List Request → Request → Except LibError Response :=
  fun sent _ =>
    match script.get? sent.length with
    | some res => .ok res
    | none => .error ⟨"connection refused"⟩

/-- A well-behaved service for the seed workflow with its default flags. -/
def seedScript : List Response :=
  [⟨201, "\x7b\"id\":\"t1\",\"name\":\"DemoTenant\",\"created_at\":\"2024-01-01T00:00:00\"\x7d"⟩,
   ⟨201, "\x7b\"id\":\"v1\",\"tenant_id\":\"t1\",\"name\":\"demo-vrf\",\"rd\":\"65000:1\"\x7d"⟩,
   ⟨201, "\x7b\"id\":\"p1\",\"vrf_id\":\"v1\",\"cidr\":\"10.0.0.0/24\",\"status\":\"active\"\x7d"⟩,
   ⟨201, "[\x7b\"id\":\"c1\",\"parent_id\":\"p1\"\x7d,\x7b\"id\":\"c2\",\"parent_id\":\"p1\"\x7d]"⟩,
   ⟨201, "\x7b\"id\":\"i1\",\"address\":\"10.0.0.1\"\x7d"⟩]

/-! ## Theorems -/

/-! ### Strings -/

theorem String.eq_empty_iff_data (s : String) : s = "" ↔ s.data = [] := by
  constructor
  · intro h; rw [h]
  · intro h; exact String.ext h

theorem String.length_pos_iff_ne_empty (s : String) : s.length > 0 ↔ s ≠ "" := by
  rw [Ne, String.eq_empty_iff_data, String.length]
  cases s.data <;> simp

theorem Contains.refl (s : String) : Contains s s := List.infix_refl _

theorem Contains.append_left {s sub : String} (t : String) (h : Contains s sub) :
    Contains (t ++ s) sub := by
  unfold Contains at *
  rw [String.data_append]
  exact List.IsInfix.trans h (List.suffix_append _ _).isInfix

theorem Contains.append_right {s sub : String} (t : String) (h : Contains s sub) :
    Contains (s ++ t) sub := by
  unfold Contains at *
  rw [String.data_append]
  exact List.IsInfix.trans h (List.prefix_append _ _).isInfix

/-! ### `doJSON` -/

/-- Everything `doJSON` does, case by case. -/
theorem Client.doJSON_spec {α : Type} (c : Client) (env : Env) (dec : Unmarshal α)
    (sent : List Request) (method path : String) (reqBody : Option Payload) (out : Option α)
    (r : Ret (Option α)) (hr : c.doJSON env dec sent method path reqBody out = r) :
    r.c = c ∧
    ((r.sent = sent ∧ r.out = out ∧ (∃ e, r.err = some (.lib e)) ∧
        (reqBody.bind env.marshalErr ≠ none ∨
          env.newRequestErr method (c.BaseURL ++ path) ≠ none)) ∨
     ∃ req : Request,
      r.sent = sent ++ [req] ∧
      (reqBody.bind env.marshalErr = none ∧ env.newRequestErr method (c.BaseURL ++ path) = none) ∧
      req.Method = method ∧ req.URL = c.BaseURL ++ path ∧ req.Body = reqBody ∧
      req.Header = (if c.IdempotencyKey = "" then [("Content-Type", "application/json")]
        else [("Content-Type", "application/json"), ("Idempotency-Key", c.IdempotencyKey)]) ∧
      match env.Do sent req with
      | .error e => r.out = out ∧ r.err = some (.lib e)
      | .ok res =>
        if 200 ≤ res.StatusCode ∧ res.StatusCode < 300 then
          match out with
          | none => r.out = none ∧ r.err = none
          | some o =>
            if res.Body = "" then r.out = some o ∧ r.err = none
            else
              r.out = some (dec res.Body o).1 ∧
              r.err = (dec res.Body o).2.map (fun e =>
                  .wrapf ("decode " ++ method ++ " " ++ path ++ ": ") (.lib e)
                    ("\nbody: " ++ res.Body))
        else
          r.out = out ∧
          r.err =
            some (if (env.unmarshalAPIError res.Body default).2 = none ∧
                ((env.unmarshalAPIError res.Body default).1.Err ≠ "" ∨
                 (env.unmarshalAPIError res.Body default).1.Message ≠ "") then
              .api (env.unmarshalAPIError res.Body default).1
            else
              .new ("http " ++ method ++ " " ++ path ++ ": " ++ toString res.StatusCode
                ++ "\nbody: " ++ res.Body))) := by
  unfold Client.doJSON at hr
  cases hm : reqBody.bind env.marshalErr with
  | some e => simp only [hm] at hr; subst hr; simp [hm]
  | none =>
    cases hn : env.newRequestErr method (c.BaseURL ++ path) with
    | some e => simp only [hm, hn] at hr; subst hr; simp [hn]
    | none =>
      simp only [hm, hn] at hr
      generalize hq : (if c.IdempotencyKey ≠ "" then
          ({ Method := method, URL := c.BaseURL ++ path,
             Header := (GoMap.set [] "Content-Type" "application/json").set "Idempotency-Key"
               c.IdempotencyKey,
             Body := reqBody } : Request)
        else
          { Method := method, URL := c.BaseURL ++ path,
            Header := GoMap.set [] "Content-Type" "application/json", Body := reqBody }) = req
        at hr
      have hreq : req.Method = method ∧ req.URL = c.BaseURL ++ path ∧ req.Body = reqBody ∧
          req.Header = (if c.IdempotencyKey = "" then [("Content-Type", "application/json")]
            else [("Content-Type", "application/json"),
              ("Idempotency-Key", c.IdempotencyKey)]) := by
        subst hq
        by_cases hk : c.IdempotencyKey = "" <;> simp [hk, GoMap.set]
      cases hd : env.Do sent req with
      | error e =>
        simp only [hd] at hr
        subst hr
        exact ⟨rfl, Or.inr ⟨req, rfl, ⟨rfl, rfl⟩, hreq.1, hreq.2.1, hreq.2.2.1, hreq.2.2.2,
          by simp [hd]⟩⟩
      | ok res =>
        simp only [hd] at hr
        by_cases hs : 200 ≤ res.StatusCode ∧ res.StatusCode < 300
        · have hs2 : res.StatusCode ≥ 200 ∧ res.StatusCode < 300 := hs
          simp only [hs2, and_self, if_true] at hr
          cases out with
          | none =>
            simp only at hr
            subst hr
            exact ⟨rfl, Or.inr ⟨req, rfl, ⟨rfl, rfl⟩, hreq.1, hreq.2.1, hreq.2.2.1, hreq.2.2.2,
              by simp [hd, hs]⟩⟩
          | some o =>
            simp only at hr
            by_cases hb : res.Body = ""
            · have hl : ¬ res.Body.length > 0 := by
                rw [String.length_pos_iff_ne_empty]; simpa using hb
              simp only [hl, if_false] at hr
              subst hr
              exact ⟨rfl, Or.inr ⟨req, rfl, ⟨rfl, rfl⟩, hreq.1, hreq.2.1, hreq.2.2.1,
                hreq.2.2.2, by simp [hd, hs, hb]⟩⟩
            · have hl : res.Body.length > 0 := (String.length_pos_iff_ne_empty _).2 hb
              simp only [hl, if_true] at hr
              rcases hdec : dec res.Body o with ⟨o2, _ | e⟩
              · simp only [hdec] at hr
                subst hr
                exact ⟨rfl, Or.inr ⟨req, rfl, ⟨rfl, rfl⟩, hreq.1, hreq.2.1, hreq.2.2.1,
                  hreq.2.2.2, by simp [hd, hs, hb, hdec]⟩⟩
              · simp only [hdec] at hr
                subst hr
                exact ⟨rfl, Or.inr ⟨req, rfl, ⟨rfl, rfl⟩, hreq.1, hreq.2.1, hreq.2.2.1,
                  hreq.2.2.2, by simp [hd, hs, hb, hdec]⟩⟩
        · have hs2 : ¬ (res.StatusCode ≥ 200 ∧ res.StatusCode < 300) := hs
          simp only [hs2, if_false] at hr
          rcases hap : env.unmarshalAPIError res.Body default with ⟨ap, er⟩
          simp only [hap] at hr
          by_cases hc : er = none ∧ (ap.Err ≠ "" ∨ ap.Message ≠ "")
          · have hc2 : er.isNone = true ∧ (ap.Err ≠ "" ∨ ap.Message ≠ "") :=
              ⟨by rw [hc.1]; rfl, hc.2⟩
            rw [if_pos hc2] at hr
            subst hr
            exact ⟨rfl, Or.inr ⟨req, rfl, ⟨rfl, rfl⟩, hreq.1, hreq.2.1, hreq.2.2.1,
              hreq.2.2.2, by simp only [hd, hs, if_false, hap]; rw [if_pos hc]; simp⟩⟩
          · have hc2 : ¬ (er.isNone = true ∧ (ap.Err ≠ "" ∨ ap.Message ≠ "")) := by
              intro h; exact hc ⟨Option.isNone_iff_eq_none.1 h.1, h.2⟩
            rw [if_neg hc2] at hr
            subst hr
            exact ⟨rfl, Or.inr ⟨req, rfl, ⟨rfl, rfl⟩, hreq.1, hreq.2.1, hreq.2.2.1,
              hreq.2.2.2, by simp only [hd, hs, if_false, hap]; rw [if_neg hc]; simp⟩⟩

/-! ### The five operations -/

theorem Op.run_eq_doJSON (o : Op) (c : Client) (env : Env) (sent : List Request) :
    ∃ reqBody : Option Payload,
      o.run c env sent =
        (c.doJSON env (o.unmarshal env) sent "POST" o.documentedPath reqBody
          (some o.zero)).deref o.zero := by
  cases o <;> exact ⟨_, rfl⟩

/-- Everything a client operation does, case by case. -/
theorem Op.run_spec (o : Op) (c : Client) (env : Env) (sent : List Request)
    (r : Ret o.Out) (hr : o.run c env sent = r) :
    r.c = c ∧
    ((r.sent = sent ∧ r.out = o.zero ∧ (∃ e, r.err = some (.lib e)) ∧
        ((∃ p, env.marshalErr p ≠ none) ∨ ∃ m u, env.newRequestErr m u ≠ none)) ∨
     ∃ req : Request,
      r.sent = sent ++ [req] ∧
      req.Method = "POST" ∧ req.URL = c.BaseURL ++ o.documentedPath ∧
      req.Header = (if c.IdempotencyKey = "" then [("Content-Type", "application/json")]
        else [("Content-Type", "application/json"), ("Idempotency-Key", c.IdempotencyKey)]) ∧
      match env.Do sent req with
      | .error e => r.out = o.zero ∧ r.err = some (.lib e)
      | .ok res =>
        if 200 ≤ res.StatusCode ∧ res.StatusCode < 300 then
          if res.Body = "" then r.out = o.zero ∧ r.err = none
          else
            r.out = (o.unmarshal env res.Body o.zero).1 ∧
            r.err = (o.unmarshal env res.Body o.zero).2.map (fun e =>
                .wrapf ("decode " ++ "POST" ++ " " ++ o.documentedPath ++ ": ") (.lib e)
                  ("\nbody: " ++ res.Body))
        else
          r.out = o.zero ∧
          r.err =
            some (if (env.unmarshalAPIError res.Body default).2 = none ∧
                ((env.unmarshalAPIError res.Body default).1.Err ≠ "" ∨
                 (env.unmarshalAPIError res.Body default).1.Message ≠ "") then
              .api (env.unmarshalAPIError res.Body default).1
            else
              .new ("http " ++ "POST" ++ " " ++ o.documentedPath ++ ": "
                ++ toString res.StatusCode ++ "\nbody: " ++ res.Body))) := by
  obtain ⟨reqBody, heq⟩ := Op.run_eq_doJSON o c env sent
  rw [heq] at hr
  subst hr
  obtain ⟨hc, h⟩ := Client.doJSON_spec c env (o.unmarshal env) sent "POST" o.documentedPath
    reqBody (some o.zero) _ rfl
  refine ⟨hc, ?_⟩
  rcases h with ⟨h1, h2, h3, h4⟩ | ⟨req, h1, _, h3, h4, _, h6, h7⟩
  · left
    refine ⟨h1, by simp [Ret.deref, h2], h3, ?_⟩
    rcases h4 with h4 | h4
    · left
      cases reqBody with
      | none => simp at h4
      | some p => exact ⟨p, h4⟩
    · exact Or.inr ⟨_, _, h4⟩
  · right
    refine ⟨req, h1, h3, h4, h6, ?_⟩
    cases hd : env.Do sent req with
    | error e =>
      rw [hd] at h7
      simpa [Ret.deref, h7.1] using h7.2
    | ok res =>
      rw [hd] at h7
      simp only at h7 ⊢
      by_cases hs : 200 ≤ res.StatusCode ∧ res.StatusCode < 300
      · rw [if_pos hs] at h7 ⊢
        by_cases hb : res.Body = ""
        · rw [if_pos hb] at h7 ⊢
          simpa [Ret.deref, h7.1] using h7.2
        · rw [if_neg hb] at h7 ⊢
          exact ⟨by simp [Ret.deref, h7.1], h7.2⟩
      · rw [if_neg hs] at h7 ⊢
        exact ⟨by simp [Ret.deref, h7.1], h7.2⟩

/-! ### Error normalization (non-2xx responses) -/

/-- The error `doJSON` returns for a response with a status outside 200..299. -/
theorem Client.doJSON_err_of_non2xx {α : Type} (c : Client) (env : Env) (dec : Unmarshal α)
    (sent : List Request) (method path : String) (reqBody : Option Payload) (out : Option α)
    (req : Request) (status : Int) (body : String)
    (hsent : (c.doJSON env dec sent method path reqBody out).sent = sent ++ [req])
    (hdo : env.Do sent req = .ok ⟨status, body⟩)
    (hstatus : status < 200 ∨ status ≥ 300) :
    (c.doJSON env dec sent method path reqBody out).err =
      some (if (env.unmarshalAPIError body default).2 = none ∧
          ((env.unmarshalAPIError body default).1.Err ≠ "" ∨
           (env.unmarshalAPIError body default).1.Message ≠ "") then
        .api (env.unmarshalAPIError body default).1
      else
        .new ("http " ++ method ++ " " ++ path ++ ": " ++ toString status
          ++ "\nbody: " ++ body)) := by
  obtain ⟨_, h⟩ := Client.doJSON_spec c env dec sent method path reqBody out _ rfl
  have hns : ¬ (200 ≤ status ∧ status < 300) := by omega
  rcases h with ⟨h1, _, _⟩ | ⟨req2, h1, _, _, _, _, _, h7⟩
  · rw [h1] at hsent
    simp at hsent
  · rw [h1] at hsent
    have hreq : req2 = req := by simpa using hsent
    subst hreq
    rw [hdo] at h7
    simp only [hns, if_false] at h7
    exact h7.2

/-- C1: whenever `doJSON` hands a request to the transport and receives a response with a
status outside 200..299, it returns a non-nil error; that error is the `APIError` decoded
from the body exactly when the body decodes as an `APIError` with a non-empty code or
message, and otherwise it is the generic error whose text is
`http <method> <path>: <status>\nbody: <body>`, which contains the method, the path, the
decimal status code and the raw body. -/
theorem Client.doJSON_non2xx {α : Type} (c : Client) (env : Env) (dec : Unmarshal α)
    (sent : List Request) (method path : String) (reqBody : Option Payload) (out : Option α)
    (req : Request) (status : Int) (body : String)
    (hsent : (c.doJSON env dec sent method path reqBody out).sent = sent ++ [req])
    (hdo : env.Do sent req = .ok ⟨status, body⟩)
    (hstatus : status < 200 ∨ status ≥ 300) :
    (c.doJSON env dec sent method path reqBody out).err ≠ none ∧
    ((∃ e, (c.doJSON env dec sent method path reqBody out).err = some (.api e)) ↔
      ((env.unmarshalAPIError body default).2 = none ∧
        ((env.unmarshalAPIError body default).1.Err ≠ "" ∨
         (env.unmarshalAPIError body default).1.Message ≠ ""))) ∧
    (((env.unmarshalAPIError body default).2 = none ∧
        ((env.unmarshalAPIError body default).1.Err ≠ "" ∨
         (env.unmarshalAPIError body default).1.Message ≠ "")) →
      (c.doJSON env dec sent method path reqBody out).err =
        some (.api (env.unmarshalAPIError body default).1)) ∧
    (¬ ((env.unmarshalAPIError body default).2 = none ∧
        ((env.unmarshalAPIError body default).1.Err ≠ "" ∨
         (env.unmarshalAPIError body default).1.Message ≠ "")) →
      (c.doJSON env dec sent method path reqBody out).err =
        some (.new ("http " ++ method ++ " " ++ path ++ ": " ++ toString status
          ++ "\nbody: " ++ body))) ∧
    (GoError.new ("http " ++ method ++ " " ++ path ++ ": " ++ toString status
          ++ "\nbody: " ++ body)).Error =
      "http " ++ method ++ " " ++ path ++ ": " ++ toString status ++ "\nbody: " ++ body ∧
    Contains ("http " ++ method ++ " " ++ path ++ ": " ++ toString status
          ++ "\nbody: " ++ body) method ∧
    Contains ("http " ++ method ++ " " ++ path ++ ": " ++ toString status
          ++ "\nbody: " ++ body) path ∧
    Contains ("http " ++ method ++ " " ++ path ++ ": " ++ toString status
          ++ "\nbody: " ++ body) (toString status) ∧
    Contains ("http " ++ method ++ " " ++ path ++ ": " ++ toString status
          ++ "\nbody: " ++ body) body := by
  have herr := Client.doJSON_err_of_non2xx c env dec sent method path reqBody out req status
    body hsent hdo hstatus
  refine ⟨by rw [herr]; simp, ?_, ?_, ?_, rfl, ?_, ?_, ?_, ?_⟩
  · rw [herr]
    constructor
    · rintro ⟨e, he⟩
      by_contra hc
      rw [if_neg hc] at he
      simp at he
    · intro hc
      rw [if_pos hc]
      exact ⟨_, rfl⟩
  · intro hc
    rw [herr, if_pos hc]
  · intro hc
    rw [herr, if_neg hc]
  · exact Contains.append_right _ (Contains.append_right _ (Contains.append_right _
      (Contains.append_right _ (Contains.append_right _ (Contains.append_right _
        (Contains.append_left _ (Contains.refl _)))))))
  · exact Contains.append_right _ (Contains.append_right _ (Contains.append_right _
      (Contains.append_right _ (Contains.append_left _ (Contains.refl _)))))
  · exact Contains.append_right _ (Contains.append_right _
      (Contains.append_left _ (Contains.refl _)))
  · exact Contains.append_left _ (Contains.refl _)

/-- C1, at a concrete input: a 500 response with the plain-text body `internal error`. -/
theorem Client.doJSON_non2xx_witness :
    ((New "http://h" "").doJSON (goEnv (fixedServer 500 "internal error"))
        (goEnv (fixedServer 500 "internal error")).unmarshalTenantOut []
        "POST" "/v1/tenants" none (some default)).sent
      = [] ++ [⟨"POST", "http://h/v1/tenants", [("Content-Type", "application/json")], none⟩] ∧
    ((New "http://h" "").doJSON (goEnv (fixedServer 500 "internal error"))
        (goEnv (fixedServer 500 "internal error")).unmarshalTenantOut []
        "POST" "/v1/tenants" none (some default)).err =
      some (.new "http POST /v1/tenants: 500\nbody: internal error") :=
  ⟨by decide,
   (Client.doJSON_non2xx (New "http://h" "") (goEnv (fixedServer 500 "internal error"))
      (goEnv (fixedServer 500 "internal error")).unmarshalTenantOut []
      "POST" "/v1/tenants" none (some default)
      ⟨"POST", "http://h/v1/tenants", [("Content-Type", "application/json")], none⟩
      500 "internal error" (by decide) rfl (by decide)).2.2.2.1 (by decide)⟩

/-- C2: `Error()` of an `APIError` is its message when that is non-empty and its code
otherwise; hence a non-2xx response whose body decodes to code `conflict` and message
`prefix overlaps` yields an error rendering as exactly `prefix overlaps`; and every
`APIError` returned by `doJSON` renders as a non-empty string. -/
theorem APIError.Error_rendering :
    (∀ e : APIError,
      (e.Message ≠ "" → APIError.Error (some e) = e.Message) ∧
      (e.Message = "" → APIError.Error (some e) = e.Err)) ∧
    (∀ (α : Type) (c : Client) (env : Env) (dec : Unmarshal α) (sent : List Request)
        (method path : String) (reqBody : Option Payload) (out : Option α) (req : Request)
        (status : Int) (body : String),
      (c.doJSON env dec sent method path reqBody out).sent = sent ++ [req] →
      env.Do sent req = .ok ⟨status, body⟩ →
      (status < 200 ∨ status ≥ 300) →
      ((env.unmarshalAPIError body default).2 = none ∧
        (env.unmarshalAPIError body default).1.Err = "conflict" ∧
        (env.unmarshalAPIError body default).1.Message = "prefix overlaps") →
      (c.doJSON env dec sent method path reqBody out).err.map GoError.Error
        = some "prefix overlaps") ∧
    (∀ (α : Type) (c : Client) (env : Env) (dec : Unmarshal α) (sent : List Request)
        (method path : String) (reqBody : Option Payload) (out : Option α) (e : APIError),
      (c.doJSON env dec sent method path reqBody out).err = some (.api e) →
      APIError.Error (some e) ≠ "") := by
  refine ⟨?_, ?_, ?_⟩
  · intro e
    constructor
    · intro h; simp [APIError.Error, h]
    · intro h; simp [APIError.Error, h]
  · intro α c env dec sent method path reqBody out req status body hsent hdo hstatus hdec
    have h := Client.doJSON_err_of_non2xx c env dec sent method path reqBody out req status
      body hsent hdo hstatus
    rw [if_pos ⟨hdec.1, Or.inl (by rw [hdec.2.1]; decide)⟩] at h
    rw [h]
    simp [GoError.Error, APIError.Error, hdec.2.2]
  · intro α c env dec sent method path reqBody out e he
    obtain ⟨_, h⟩ := Client.doJSON_spec c env dec sent method path reqBody out _ rfl
    rcases h with ⟨_, _, ⟨e2, h3⟩, _⟩ | ⟨req, _, _, _, _, _, _, h7⟩
    · rw [h3] at he; simp at he
    · cases hd : env.Do sent req with
      | error e2 => rw [hd] at h7; rw [h7.2] at he; simp at he
      | ok res =>
        rw [hd] at h7
        simp only at h7
        by_cases hs : 200 ≤ res.StatusCode ∧ res.StatusCode < 300
        · rw [if_pos hs] at h7
          cases out with
          | none => simp only at h7; rw [h7.2] at he; simp at he
          | some o =>
            simp only at h7
            by_cases hb : res.Body = ""
            · rw [if_pos hb] at h7; rw [h7.2] at he; simp at he
            · rw [if_neg hb] at h7
              rw [h7.2] at he
              cases hx : (dec res.Body o).2 <;> simp [hx] at he
        · rw [if_neg hs] at h7
          by_cases hc : (env.unmarshalAPIError res.Body default).2 = none ∧
              ((env.unmarshalAPIError res.Body default).1.Err ≠ "" ∨
               (env.unmarshalAPIError res.Body default).1.Message ≠ "")
          · rw [h7.2, if_pos hc] at he
            have he2 : (env.unmarshalAPIError res.Body default).1 = e := by
              simpa using he
            rw [← he2]
            by_cases hm : (env.unmarshalAPIError res.Body default).1.Message = ""
            · rcases hc.2 with h | h
              · simpa [APIError.Error, hm] using h
              · exact absurd hm h
            · simp [APIError.Error, hm]
          · rw [h7.2, if_neg hc] at he
            simp at he

/-- C2, at a concrete input: a 409 response carrying the conflict body, decoded by the
reference JSON decoder. -/
theorem APIError.Error_rendering_witness :
    ((New "http://h" "").doJSON
        (goEnv (fixedServer 409
          "\x7b\"error\":\"conflict\",\"message\":\"prefix overlaps\"\x7d"))
        (goEnv (fixedServer 409
          "\x7b\"error\":\"conflict\",\"message\":\"prefix overlaps\"\x7d")).unmarshalTenantOut
        [] "POST" "/v1/prefixes" none (some default)).err.map GoError.Error
      = some "prefix overlaps" :=
  APIError.Error_rendering.2.1 TenantOut (New "http://h" "")
    (goEnv (fixedServer 409 "\x7b\"error\":\"conflict\",\"message\":\"prefix overlaps\"\x7d"))
    (goEnv (fixedServer 409
      "\x7b\"error\":\"conflict\",\"message\":\"prefix overlaps\"\x7d")).unmarshalTenantOut
    [] "POST" "/v1/prefixes" none (some default)
    ⟨"POST", "http://h/v1/prefixes", [("Content-Type", "application/json")], none⟩
    409 "\x7b\"error\":\"conflict\",\"message\":\"prefix overlaps\"\x7d"
    (by decide) rfl (by decide) (by decide)

/-! ### Successful responses -/

/-- C3: for every operation and every response with a status in 200..299: an empty body
gives the zero value and no error; a non-empty body that decodes gives the decoded value
and no error; a non-empty body that does not decode gives an error whose message contains
the raw body. -/
theorem Op.run_2xx (o : Op) (c : Client) (env : Env) (sent : List Request) (req : Request)
    (status : Int) (body : String)
    (hsent : (o.run c env sent).sent = sent ++ [req])
    (hdo : env.Do sent req = .ok ⟨status, body⟩)
    (hstatus : 200 ≤ status ∧ status ≤ 299) :
    (body = "" → (o.run c env sent).out = o.zero ∧ (o.run c env sent).err = none) ∧
    (body ≠ "" → (o.unmarshal env body o.zero).2 = none →
      (o.run c env sent).out = (o.unmarshal env body o.zero).1 ∧
      (o.run c env sent).err = none) ∧
    (body ≠ "" → (o.unmarshal env body o.zero).2 ≠ none →
      ∃ e, (o.run c env sent).err = some e ∧ Contains e.Error body) := by
  obtain ⟨_, h⟩ := Op.run_spec o c env sent _ rfl
  have hs : 200 ≤ status ∧ status < 300 := by omega
  rcases h with ⟨h1, _, _⟩ | ⟨req2, h1, _, _, _, h7⟩
  · rw [h1] at hsent
    simp at hsent
  · rw [h1] at hsent
    have hreq : req2 = req := by simpa using hsent
    subst hreq
    rw [hdo] at h7
    simp only [hs, and_self, if_true] at h7
    refine ⟨?_, ?_, ?_⟩
    · intro hb
      rw [if_pos hb] at h7
      exact h7
    · intro hb hd
      rw [if_neg hb] at h7
      exact ⟨h7.1, by rw [h7.2, hd]; rfl⟩
    · intro hb hd
      rw [if_neg hb] at h7
      obtain ⟨e, he⟩ := Option.ne_none_iff_exists'.1 hd
      refine ⟨_, by rw [h7.2, he]; rfl, ?_⟩
      simp only [GoError.Error]
      exact Contains.append_left _ (Contains.append_left _ (Contains.refl _))

/-- C3, at a concrete input: create-tenant answered 201 with a body that is not JSON. -/
theorem Op.run_2xx_witness :
    ((Op.CreateTenant "a").run (New "http://h" "") (goEnv (fixedServer 201 "oops")) []).sent
      = [] ++ [⟨"POST", "http://h/v1/tenants", [("Content-Type", "application/json")],
          some [("name", .str "a")]⟩] ∧
    ∃ e, ((Op.CreateTenant "a").run (New "http://h" "") (goEnv (fixedServer 201 "oops")) []).err
        = some e ∧ Contains e.Error "oops" :=
  ⟨by decide,
   (Op.run_2xx (Op.CreateTenant "a") (New "http://h" "") (goEnv (fixedServer 201 "oops")) []
      ⟨"POST", "http://h/v1/tenants", [("Content-Type", "application/json")],
        some [("name", .str "a")]⟩ 201 "oops" (by decide) rfl (by decide)).2.2
      (by decide) (by decide)⟩

/-! ### Results alongside errors -/

/-- C4, as stated, fails: create-tenant answered 200 with a body whose `id` is valid and
whose `name` is a number returns a non-nil error together with a result whose `ID` is
filled in. -/
theorem Client.CreateTenant_result_with_error :
    ((New "http://h" "").CreateTenant
        (goEnv (fixedServer 200 "\x7b\"id\":\"t1\",\"name\":5\x7d")) [] "a").err.isSome = true ∧
    ((New "http://h" "").CreateTenant
        (goEnv (fixedServer 200 "\x7b\"id\":\"t1\",\"name\":5\x7d")) [] "a").out.ID = "t1" ∧
    ((New "http://h" "").CreateTenant
        (goEnv (fixedServer 200 "\x7b\"id\":\"t1\",\"name\":5\x7d")) [] "a").out
      ≠ (default : TenantOut) := by
  decide

/-- C4, amended: when an operation receives a non-empty body with a status in 200..299 that
`json.Unmarshal` fails to decode, it returns a non-nil error together with what
`json.Unmarshal` left in the result variable; whenever it returns a non-nil error that is
not such a decode failure, its result is the zero value of its type. -/
theorem Op.run_error_result (o : Op) (c : Client) (env : Env) (sent : List Request) :
    (∀ (req : Request) (status : Int) (body : String),
      (o.run c env sent).sent = sent ++ [req] →
      env.Do sent req = .ok ⟨status, body⟩ →
      (200 ≤ status ∧ status ≤ 299) → body ≠ "" →
      (o.unmarshal env body o.zero).2 ≠ none →
      (o.run c env sent).err ≠ none ∧
      (o.run c env sent).out = (o.unmarshal env body o.zero).1) ∧
    ((o.run c env sent).err ≠ none →
      (∀ (req : Request) (status : Int) (body : String),
        (o.run c env sent).sent = sent ++ [req] →
        env.Do sent req = .ok ⟨status, body⟩ →
        ¬ ((200 ≤ status ∧ status ≤ 299) ∧ body ≠ "" ∧
            (o.unmarshal env body o.zero).2 ≠ none)) →
      (o.run c env sent).out = o.zero) := by
  obtain ⟨_, h⟩ := Op.run_spec o c env sent _ rfl
  constructor
  · intro req status body hsent hdo hstatus hb hdec
    have hs : 200 ≤ status ∧ status < 300 := by omega
    rcases h with ⟨h1, _⟩ | ⟨req2, h1, _, _, _, h7⟩
    · rw [h1] at hsent
      simp at hsent
    · rw [h1] at hsent
      have hreq : req2 = req := by simpa using hsent
      subst hreq
      rw [hdo] at h7
      simp only [hs, and_self, if_true] at h7
      rw [if_neg hb] at h7
      obtain ⟨e, he⟩ := Option.ne_none_iff_exists'.1 hdec
      exact ⟨by rw [h7.2, he]; simp, h7.1⟩
  · intro herr hnot
    rcases h with ⟨_, h2, _⟩ | ⟨req, h1, _, _, _, h7⟩
    · exact h2
    · cases hd : env.Do sent req with
      | error e => rw [hd] at h7; exact h7.1
      | ok res =>
        rw [hd] at h7
        simp only at h7
        by_cases hs : 200 ≤ res.StatusCode ∧ res.StatusCode < 300
        · rw [if_pos hs] at h7
          by_cases hb : res.Body = ""
          · rw [if_pos hb] at h7; exact h7.1
          · rw [if_neg hb] at h7
            exfalso
            refine hnot req res.StatusCode res.Body h1 hd ⟨by omega, hb, ?_⟩
            intro hn
            rw [h7.2, hn] at herr
            exact herr rfl
        · rw [if_neg hs] at h7; exact h7.1

/-- C4, amended, at concrete inputs: create-tenant answered 200 with a body whose `name` is
a number returns the error together with the partly filled value `json.Unmarshal` left,
and create-tenant answered 500 returns the error together with the zero value. -/
theorem Op.run_error_result_witness :
    (((Op.CreateTenant "a").run (New "http://h" "")
        (goEnv (fixedServer 200 "\x7b\"id\":\"t1\",\"name\":5\x7d")) []).err ≠ none ∧
     ((Op.CreateTenant "a").run (New "http://h" "")
        (goEnv (fixedServer 200 "\x7b\"id\":\"t1\",\"name\":5\x7d")) []).out =
      ((Op.CreateTenant "a").unmarshal
        (goEnv (fixedServer 200 "\x7b\"id\":\"t1\",\"name\":5\x7d"))
        "\x7b\"id\":\"t1\",\"name\":5\x7d" (Op.CreateTenant "a").zero).1) ∧
    ((goEnv (fixedServer 200 "\x7b\"id\":\"t1\",\"name\":5\x7d")).unmarshalTenantOut
        "\x7b\"id\":\"t1\",\"name\":5\x7d" default).1
      = (⟨"t1", "", default⟩ : TenantOut) ∧
    ((Op.CreateTenant "a").run (New "http://h" "")
        (goEnv (fixedServer 500 "internal error")) []).out = (Op.CreateTenant "a").zero :=
  ⟨(Op.run_error_result (Op.CreateTenant "a") (New "http://h" "")
      (goEnv (fixedServer 200 "\x7b\"id\":\"t1\",\"name\":5\x7d")) []).1
      ⟨"POST", "http://h/v1/tenants", [("Content-Type", "application/json")],
        some [("name", .str "a")]⟩ 200 "\x7b\"id\":\"t1\",\"name\":5\x7d"
      (by decide) rfl (by decide) (by decide) (by decide),
   by decide,
   (Op.run_error_result (Op.CreateTenant "a") (New "http://h" "")
      (goEnv (fixedServer 500 "internal error")) []).2
      (Option.ne_none_iff_isSome.2 (by decide))
      (fun _ status _ _ hdo hc => by
        have h500 : (500 : Int) = status :=
          congrArg Response.StatusCode (Except.ok.inj hdo)
        omega)⟩

/-! ### Request construction -/

/-- C7: every operation leaves the handle unchanged; the request it builds, if any, is a
POST to the base URL followed by the documented path, with `Content-Type: application/json`,
with `Idempotency-Key` equal to the configured key when that is non-empty and without that
header when it is empty, and with no other header; and a request is built whenever
`json.Marshal` and `http.NewRequest` succeed. -/
theorem Op.run_request (o : Op) (c : Client) (env : Env) (sent : List Request) :
    ((o.run c env sent).c.BaseURL = c.BaseURL ∧
      (o.run c env sent).c.IdempotencyKey = c.IdempotencyKey) ∧
    ((o.run c env sent).sent = sent ∨ ∃ req, (o.run c env sent).sent = sent ++ [req]) ∧
    (∀ req, (o.run c env sent).sent = sent ++ [req] →
      req.Method = "POST" ∧ req.URL = c.BaseURL ++ o.documentedPath ∧
      req.Header.get "Content-Type" = some "application/json" ∧
      (c.IdempotencyKey ≠ "" → req.Header.get "Idempotency-Key" = some c.IdempotencyKey) ∧
      (c.IdempotencyKey = "" → req.Header.get "Idempotency-Key" = none) ∧
      (∀ k, k ≠ "Content-Type" → k ≠ "Idempotency-Key" → req.Header.get k = none)) ∧
    ((∀ p, env.marshalErr p = none) → (∀ m u, env.newRequestErr m u = none) →
      ∃ req, (o.run c env sent).sent = sent ++ [req]) := by
  obtain ⟨hc, h⟩ := Op.run_spec o c env sent _ rfl
  refine ⟨by rw [hc]; exact ⟨rfl, rfl⟩, ?_, ?_, ?_⟩
  · rcases h with ⟨h1, _, _⟩ | ⟨req, h1, _⟩
    · exact Or.inl h1
    · exact Or.inr ⟨req, h1⟩
  · intro req hreq
    rcases h with ⟨h1, _, _⟩ | ⟨req2, h1, h2, h3, h4, _⟩
    · rw [h1] at hreq; simp at hreq
    · rw [h1] at hreq
      have : req2 = req := by simpa using hreq
      subst this
      refine ⟨h2, h3, ?_, ?_, ?_, ?_⟩
      · rw [h4]; split <;> simp [GoMap.get]
      · intro hk; rw [h4, if_neg hk]; simp [GoMap.get]
      · intro hk; rw [h4, if_pos hk]; simp [GoMap.get]
      · intro k hk1 hk2
        rw [h4]
        split <;> simp [GoMap.get, Ne.symm hk1, Ne.symm hk2]
  · intro hm hn
    rcases h with ⟨_, _, _, h4⟩ | ⟨req, h1, _⟩
    · rcases h4 with ⟨p, hp⟩ | ⟨m, u, hu⟩
      · exact absurd (hm p) hp
      · exact absurd (hn m u) hu
    · exact ⟨req, h1⟩

/-- C7, at a concrete input: next-ip with a configured idempotency key. -/
theorem Op.run_request_witness :
    ((Op.NextIP "p1").run (New "http://h/" "k1") (goEnv (fixedServer 200 "")) []).sent
      = [⟨"POST", "http://h/v1/prefixes/p1/ips/next",
          [("Content-Type", "application/json"), ("Idempotency-Key", "k1")], none⟩] ∧
    ∃ req, ((Op.NextIP "p1").run (New "http://h/" "k1") (goEnv (fixedServer 200 "")) []).sent
      = [] ++ [req] :=
  ⟨by decide,
   (Op.run_request (Op.NextIP "p1") (New "http://h/" "k1") (goEnv (fixedServer 200 "")) []).2.2.2
    (fun _ => rfl) (fun _ _ => rfl)⟩

theorem Client.doJSON_sent_request {α : Type} (c : Client) (env : Env) (dec : Unmarshal α)
    (sent : List Request) (method path : String) (reqBody : Option Payload) (out : Option α)
    (req : Request) (hsent : (c.doJSON env dec sent method path reqBody out).sent = sent ++ [req]) :
    req.Method = method ∧ req.URL = c.BaseURL ++ path ∧ req.Body = reqBody := by
  obtain ⟨_, h⟩ := Client.doJSON_spec c env dec sent method path reqBody out _ rfl
  rcases h with ⟨h1, _⟩ | ⟨req2, h1, _, h3, h4, h5, _⟩
  · rw [h1] at hsent; simp at hsent
  · rw [h1] at hsent
    have : req2 = req := by simpa using hsent
    subst this
    exact ⟨h3, h4, h5⟩

/-- C5: the body of the request built by `CreateVRF` holds `tenant_id` and `name` with the
given values; it holds the key `rd` exactly when `rd` is present and non-empty, with exactly
that value, and no key besides these three. -/
theorem Client.CreateVRF_body (c : Client) (env : Env) (sent : List Request)
    (tenantID name : String) (rd : Option String) (req : Request)
    (hsent : (c.CreateVRF env sent tenantID name rd).sent = sent ++ [req]) :
    ∃ p : Payload, req.Body = some p ∧
      p.get "tenant_id" = some (.str tenantID) ∧
      p.get "name" = some (.str name) ∧
      ((∃ v, p.get "rd" = some v) ↔ ∃ r, rd = some r ∧ r ≠ "") ∧
      (∀ r, rd = some r → r ≠ "" → p.get "rd" = some (.str r)) ∧
      (∀ k, k ≠ "tenant_id" → k ≠ "name" → k ≠ "rd" → p.get k = none) := by
  unfold Client.CreateVRF at hsent
  simp only [Ret.deref] at hsent
  obtain ⟨_, _, hbody⟩ := Client.doJSON_sent_request _ _ _ _ _ _ _ _ _ hsent
  refine ⟨_, hbody, ?_⟩
  cases rd with
  | none =>
    refine ⟨by simp [GoMap.get], by simp [GoMap.get], by simp [GoMap.get], by simp, ?_⟩
    intro k h1 h2 _
    simp [GoMap.get, Ne.symm h1, Ne.symm h2]
  | some r =>
    by_cases hr : r = ""
    · refine ⟨by simp [GoMap.get, hr], by simp [GoMap.get, hr], by simp [GoMap.get, hr],
        by simp [hr], ?_⟩
      intro k h1 h2 _
      simp [GoMap.get, hr, Ne.symm h1, Ne.symm h2]
    · refine ⟨by simp [GoMap.get, GoMap.set, hr], by simp [GoMap.get, GoMap.set, hr],
        by simp [GoMap.get, GoMap.set, hr], by simp [GoMap.get, GoMap.set, hr], ?_⟩
      intro k h1 h2 h3
      simp [GoMap.get, GoMap.set, hr, Ne.symm h1, Ne.symm h2, Ne.symm h3]

/-- C5, at a concrete input: an empty route distinguisher is left out of the body. -/
theorem Client.CreateVRF_body_witness :
    ((New "http://h" "").CreateVRF (goEnv (fixedServer 200 "")) [] "t1" "blue" (some "")).sent
      = [] ++ [⟨"POST", "http://h/v1/vrfs", [("Content-Type", "application/json")],
          some [("tenant_id", .str "t1"), ("name", .str "blue")]⟩] ∧
    ∃ p : Payload,
      (⟨"POST", "http://h/v1/vrfs", [("Content-Type", "application/json")],
          some [("tenant_id", .str "t1"), ("name", .str "blue")]⟩ : Request).Body = some p ∧
      p.get "tenant_id" = some (.str "t1") ∧
      p.get "name" = some (.str "blue") ∧
      ((∃ v, p.get "rd" = some v) ↔ ∃ r, (some "" : Option String) = some r ∧ r ≠ "") ∧
      (∀ r, (some "" : Option String) = some r → r ≠ "" → p.get "rd" = some (.str r)) ∧
      (∀ k, k ≠ "tenant_id" → k ≠ "name" → k ≠ "rd" → p.get k = none) :=
  ⟨by decide,
   Client.CreateVRF_body (New "http://h" "") (goEnv (fixedServer 200 "")) [] "t1" "blue"
    (some "") _ (by decide)⟩

/-- C6: the carve-children command with a non-empty prefix id sends mask 28 in place of 0,
count 1 in place of a count that is zero or negative, the given values otherwise, and the
strategy `first-fit`; `CarveChildren` itself sends the mask and count it is given. -/
theorem cmd.carve_request_body :
    (∀ (env : Env) (root : cmd.RootFlags) (f : cmd.CarveFlags) (sent : List Request)
        (req : Request),
      f.cPrefixID ≠ "" →
      (cmd.carveRunE env root f sent).sent = sent ++ [req] →
      ∃ p : Payload, req.Body = some p ∧
        p.get "mask" = some (.int (if f.cMask = 0 then 28 else f.cMask)) ∧
        p.get "count" = some (.int (if f.cCount ≤ 0 then 1 else f.cCount)) ∧
        p.get "strategy" = some (.str "first-fit")) ∧
    (∀ (c : Client) (env : Env) (sent : List Request) (prefixID : String) (mask count : Int)
        (req : Request),
      (c.CarveChildren env sent prefixID mask count).sent = sent ++ [req] →
      ∃ p : Payload, req.Body = some p ∧
        p.get "mask" = some (.int mask) ∧
        p.get "count" = some (.int count) ∧
        p.get "strategy" = some (.str "first-fit")) := by
  have hclient : ∀ (c : Client) (env : Env) (sent : List Request) (prefixID : String)
      (mask count : Int) (req : Request),
      (c.CarveChildren env sent prefixID mask count).sent = sent ++ [req] →
      ∃ p : Payload, req.Body = some p ∧
        p.get "mask" = some (.int mask) ∧
        p.get "count" = some (.int count) ∧
        p.get "strategy" = some (.str "first-fit") := by
    intro c env sent prefixID mask count req hsent
    unfold Client.CarveChildren at hsent
    simp only [Ret.deref] at hsent
    obtain ⟨_, _, hbody⟩ := Client.doJSON_sent_request _ _ _ _ _ _ _ _ _ hsent
    exact ⟨_, hbody, by simp [GoMap.get], by simp [GoMap.get], by simp [GoMap.get]⟩
  refine ⟨?_, hclient⟩
  intro env root f sent req hid hsent
  unfold cmd.carveRunE at hsent
  rw [if_neg hid] at hsent
  have hsent2 : ((New root.baseURL root.idemKey).CarveChildren env sent f.cPrefixID
      (if f.cMask = 0 then 28 else f.cMask) (if f.cCount ≤ 0 then 1 else f.cCount)).sent
      = sent ++ [req] := by
    by_cases h1 : f.cMask = 0 <;> by_cases h2 : f.cCount ≤ 0 <;>
      simp only [h1, h2, if_true, if_false] at hsent ⊢ <;>
      (revert hsent; split <;> exact id)
  exact hclient _ _ _ _ _ _ _ hsent2

/-- C6, at a concrete input: mask 0 and count -3 are sent as 28 and 1. -/
theorem cmd.carve_request_body_witness :
    (cmd.carveRunE (goEnv (fixedServer 200 "[]")) ⟨"http://h", ""⟩ ⟨"p1", 0, -3⟩ []).sent
      = [] ++ [⟨"POST", "http://h/v1/prefixes/p1/children",
          [("Content-Type", "application/json")],
          some [("mask", .int 28), ("count", .int 1), ("strategy", .str "first-fit")]⟩] ∧
    ∃ p : Payload,
      (⟨"POST", "http://h/v1/prefixes/p1/children", [("Content-Type", "application/json")],
          some [("mask", .int 28), ("count", .int 1), ("strategy", .str "first-fit")]⟩
        : Request).Body = some p ∧
      p.get "mask" = some (.int (if (0 : Int) = 0 then 28 else 0)) ∧
      p.get "count" = some (.int (if (-3 : Int) ≤ 0 then 1 else -3)) ∧
      p.get "strategy" = some (.str "first-fit") :=
  ⟨by decide,
   cmd.carve_request_body.1 (goEnv (fixedServer 200 "[]")) ⟨"http://h", ""⟩ ⟨"p1", 0, -3⟩ [] _
    (by decide) (by decide)⟩

/-! ### Base URL normalization -/

theorem strings.TrimRight_data (s cutset : String) :
    ∃ t : List Char, s.data = (strings.TrimRight s cutset).data ++ t ∧
      ∀ c ∈ t, cutset.data.contains c = true := by
  refine ⟨(s.data.reverse.takeWhile (fun c => cutset.data.contains c)).reverse, ?_, ?_⟩
  · have h := List.takeWhile_append_dropWhile (fun c => cutset.data.contains c) s.data.reverse
    have h2 := congrArg List.reverse h
    simp only [List.reverse_append, List.reverse_reverse] at h2
    simpa [strings.TrimRight] using h2.symm
  · intro c hc
    rw [List.mem_reverse] at hc
    exact List.mem_takeWhile_imp hc

theorem strings.TrimRight_getLast (s cutset : String) (c : Char)
    (h : (strings.TrimRight s cutset).data.getLast? = some c) :
    cutset.data.contains c = false := by
  have h2 := List.head?_dropWhile_not (fun c => cutset.data.contains c) s.data.reverse
  simp only [strings.TrimRight, List.getLast?_reverse] at h
  rw [h] at h2
  simpa using h2

theorem strings.TrimRight_of_getLast (s cutset : String)
    (h : ∀ c, s.data.getLast? = some c → cutset.data.contains c = false) :
    strings.TrimRight s cutset = s := by
  apply String.ext
  simp only [strings.TrimRight]
  cases hr : s.data.reverse with
  | nil => simp [List.reverse_eq_nil_iff.1 hr]
  | cons a l =>
    have ha : s.data.getLast? = some a := by
      rw [← List.head?_reverse, hr]; rfl
    have := h a ha
    rw [List.dropWhile_cons_of_neg (by simpa using this), ← hr, List.reverse_reverse]

/-- C10, as stated, fails: for the base URL `/` the client's base URL is empty, and `New`
applied to that normalized base URL does not return it unchanged. -/
theorem New_slash_only :
    (New "/" "k").BaseURL = "" ∧
    (New (New "/" "k").BaseURL "k").BaseURL = "http://127.0.0.1:8000" ∧
    (New (New "/" "k").BaseURL "k").BaseURL ≠ (New "/" "k").BaseURL := by
  decide

/-- C10, amended: the base URL of `New b k` never ends in `/`; it is `b` with its trailing
`/` characters removed when `b` is non-empty and the local default when `b` is empty; it
is empty exactly when `b` is non-empty and consists of `/` characters only; `New` applied to
a non-empty normalized base URL returns it unchanged; and the key is stored unchanged. -/
theorem New_normalizes (b k : String) :
    (New b k).BaseURL.data.getLast? ≠ some '/' ∧
    (b ≠ "" → ∃ n : Nat, b.data = (New b k).BaseURL.data ++ List.replicate n '/') ∧
    (b = "" → (New b k).BaseURL = "http://127.0.0.1:8000") ∧
    ((New b k).BaseURL = "" ↔ (b ≠ "" ∧ ∀ c ∈ b.data, c = '/')) ∧
    ((New b k).BaseURL ≠ "" → (New (New b k).BaseURL k).BaseURL = (New b k).BaseURL) ∧
    (New b k).IdempotencyKey = k := by
  have hlast : ∀ s : String, (strings.TrimRight s "/").data.getLast? ≠ some '/' := by
    intro s h
    have := strings.TrimRight_getLast s "/" '/' h
    simp at this
  have hrep : ∀ s : String, ∃ n : Nat,
      s.data = (strings.TrimRight s "/").data ++ List.replicate n '/' := by
    intro s
    obtain ⟨t, h1, h2⟩ := strings.TrimRight_data s "/"
    refine ⟨t.length, ?_⟩
    rw [h1]
    congr 1
    exact List.eq_replicate_iff.2 ⟨rfl, fun c hc => by simpa using h2 c hc⟩
  by_cases hb : b = ""
  · subst hb
    have h0 : (New "" k).BaseURL = "http://127.0.0.1:8000" := by
      simp only [New]; decide
    rw [h0]
    refine ⟨by decide, fun h => absurd rfl h, fun _ => rfl, ?_, fun _ => by simp only [New]; decide,
      rfl⟩
    constructor
    · intro h; exact absurd h (by decide)
    · intro h; exact absurd rfl h.1
  · have hB : (New b k).BaseURL = strings.TrimRight b "/" := by
      simp [New, hb]
    refine ⟨by rw [hB]; exact hlast b, fun _ => by rw [hB]; exact hrep b,
      fun h => absurd h hb, ?_, ?_, rfl⟩
    · rw [hB]
      constructor
      · intro h
        refine ⟨hb, ?_⟩
        obtain ⟨n, hn⟩ := hrep b
        rw [h] at hn
        intro c hc
        rw [hn] at hc
        simpa using (List.mem_replicate.1 (by simpa using hc)).2
      · rintro ⟨_, h⟩
        apply String.ext
        simp only [strings.TrimRight]
        rw [List.reverse_eq_nil_iff, List.dropWhile_eq_nil_iff]
        intro c hc
        have := h c (List.mem_reverse.1 hc)
        simp [this]
    · intro hne
      have hne2 : (New b k).BaseURL ≠ "" := hne
      rw [hB] at hne ⊢
      have : (New (strings.TrimRight b "/") k).BaseURL
          = strings.TrimRight (strings.TrimRight b "/") "/" := by
        simp [New, hne]
      rw [this]
      apply strings.TrimRight_of_getLast
      intro c hc
      by_cases hcs : c = '/'
      · subst hcs; exact absurd hc (hlast b)
      · simp [hcs]

/-- C10, amended, at a concrete input. -/
theorem New_normalizes_witness :
    (New "http://h:1//" "k").BaseURL = "http://h:1" ∧
    (New (New "http://h:1//" "k").BaseURL "k").BaseURL = (New "http://h:1//" "k").BaseURL :=
  ⟨by decide, (New_normalizes "http://h:1//" "k").2.2.2.2.1 (by decide)⟩

/-! ### The seed workflow -/

/-- The parent references carried by the request of an operation. -/
theorem Op.run_parent_ids (o : Op) (c : Client) (env : Env) (sent : List Request)
    (req : Request) (hsent : (o.run c env sent).sent = sent ++ [req]) :
    (req.Body.bind (fun p => p.get "tenant_id"), req.Body.bind (fun p => p.get "vrf_id")) =
      match o with
      | .CreateVRF tenantID _ _ => (some (.str tenantID), none)
      | .CreatePrefix vrfID _ _ _ => (none, some (.str vrfID))
      | _ => (none, none) := by
  cases o with
  | CreateTenant name =>
    simp only [Op.run, Client.CreateTenant, Ret.deref] at hsent
    obtain ⟨_, _, hbody⟩ := Client.doJSON_sent_request _ _ _ _ _ _ _ _ _ hsent
    simp [hbody, GoMap.get]
  | CreateVRF tenantID name rd =>
    simp only [Op.run, Client.CreateVRF, Ret.deref] at hsent
    obtain ⟨_, _, hbody⟩ := Client.doJSON_sent_request _ _ _ _ _ _ _ _ _ hsent
    rw [hbody]
    cases rd with
    | none => simp [GoMap.get]
    | some r => by_cases hr : r = "" <;> simp [GoMap.get, GoMap.set, hr]
  | CreatePrefix vrfID cidr status desc =>
    simp only [Op.run, Client.CreatePrefix, Ret.deref] at hsent
    obtain ⟨_, _, hbody⟩ := Client.doJSON_sent_request _ _ _ _ _ _ _ _ _ hsent
    simp [hbody, GoMap.get]
  | CarveChildren prefixID mask count =>
    simp only [Op.run, Client.CarveChildren, Ret.deref] at hsent
    obtain ⟨_, _, hbody⟩ := Client.doJSON_sent_request _ _ _ _ _ _ _ _ _ hsent
    simp [hbody, GoMap.get]
  | NextIP prefixID =>
    simp only [Op.run, Client.NextIP, Ret.deref] at hsent
    obtain ⟨_, _, hbody⟩ := Client.doJSON_sent_request _ _ _ _ _ _ _ _ _ hsent
    simp [hbody]

/-- One step of a workflow: an operation either fails without sending anything, or sends one
request, of which the method, the URL and the `tenant_id` and `vrf_id` of the body are
given. -/
theorem Op.run_step (o : Op) (c : Client) (env : Env) (sent : List Request) :
    (o.run c env sent).c = c ∧
    (((o.run c env sent).sent = sent ∧ (o.run c env sent).err ≠ none) ∨
     ∃ req, (o.run c env sent).sent = sent ++ [req] ∧
      (req.Method, req.URL, req.Body.bind (fun p => p.get "tenant_id"),
        req.Body.bind (fun p => p.get "vrf_id")) =
      ("POST", c.BaseURL ++ o.documentedPath,
        (match o with
         | .CreateVRF tenantID _ _ => some (.str tenantID)
         | _ => none),
        (match o with
         | .CreatePrefix vrfID _ _ _ => some (.str vrfID)
         | _ => none))) := by
  obtain ⟨hc, h⟩ := Op.run_spec o c env sent _ rfl
  refine ⟨hc, ?_⟩
  rcases h with ⟨h1, _, ⟨e, he⟩, _⟩ | ⟨req, h1, h2, h3, _⟩
  · exact Or.inl ⟨h1, by rw [he]; simp⟩
  · right
    refine ⟨req, h1, ?_⟩
    have hp := Op.run_parent_ids o c env sent req h1
    rw [h2, h3]
    cases o <;> simp_all

theorem cmd.seedRunE_aux (env : Env) (root : cmd.RootFlags) (f : cmd.SeedFlags)
    (sent : List Request) (cl : Client) (t : Ret TenantOut) (v : Ret VrfOut)
    (p : Ret PrefixOut) (kids : Ret (Option (List PrefixOut))) (target : String)
    (ip : Ret NextIPOut) (r : cmd.CmdRet cmd.SeedFlags)
    (hcl : cl = New root.baseURL root.idemKey)
    (ht : t = cl.CreateTenant env sent f.seedTenant)
    (hv : v = cl.CreateVRF env t.sent t.out.ID f.seedVRF
      (if f.seedRD = "" then none else some f.seedRD))
    (hp : p = cl.CreatePrefix env v.sent v.out.ID f.seedCIDR f.seedStatus "seed root")
    (hk : kids = cl.CarveChildren env p.sent p.out.ID f.seedMask f.seedCount)
    (htarget : target = cmd.seedTarget p.out.ID kids.out)
    (hip : ip = cl.NextIP env kids.sent target)
    (hr : r = cmd.seedRunE env root f sent) :
    ((∀ e, t.err = some e →
        r.sent = t.sent ∧ r.err = some (.wrapf "create tenant: " e "")) ∧
     (t.err = none → ∀ e, v.err = some e →
        r.sent = v.sent ∧ r.err = some (.wrapf "create vrf: " e "")) ∧
     (t.err = none → v.err = none → ∀ e, p.err = some e →
        r.sent = p.sent ∧ r.err = some (.wrapf "create prefix: " e "")) ∧
     (t.err = none → v.err = none → p.err = none → ∀ e, kids.err = some e →
        r.sent = kids.sent ∧ r.err = some (.wrapf "carve children: " e "")) ∧
     (t.err = none → v.err = none → p.err = none → kids.err = none → ∀ e, ip.err = some e →
        r.sent = ip.sent ∧ r.err = some (.wrapf "next ip: " e "")) ∧
     (t.err = none → v.err = none → p.err = none → kids.err = none → ip.err = none →
        r.sent = ip.sent ∧ r.err = none)) ∧
    (∃ calls : List Request, r.sent = sent ++ calls ∧
      calls.map (fun q => (q.Method, q.URL, q.Body.bind (fun b => b.get "tenant_id"),
          q.Body.bind (fun b => b.get "vrf_id"))) <+:
        [("POST", cl.BaseURL ++ "/v1/tenants", none, none),
         ("POST", cl.BaseURL ++ "/v1/vrfs", some (.str t.out.ID), none),
         ("POST", cl.BaseURL ++ "/v1/prefixes", none, some (.str v.out.ID)),
         ("POST", cl.BaseURL ++ ("/v1/prefixes/" ++ p.out.ID ++ "/children"), none, none),
         ("POST", cl.BaseURL ++ ("/v1/prefixes/" ++ target ++ "/ips/next"), none, none)]) := by
  have s1 := Op.run_step (.CreateTenant f.seedTenant) cl env sent
  have s2 := Op.run_step (.CreateVRF t.out.ID f.seedVRF
      (if f.seedRD = "" then none else some f.seedRD)) cl env t.sent
  have s3 := Op.run_step (.CreatePrefix v.out.ID f.seedCIDR f.seedStatus "seed root") cl env
    v.sent
  have s4 := Op.run_step (.CarveChildren p.out.ID f.seedMask f.seedCount) cl env p.sent
  have s5 := Op.run_step (.NextIP target) cl env kids.sent
  simp only [Op.run, Op.documentedPath] at s1 s2 s3 s4 s5
  rw [← ht] at s1
  rw [← hv] at s2
  rw [← hp] at s3
  rw [← hk] at s4
  rw [← hip] at s5
  have hrd : (if f.seedRD ≠ "" then some f.seedRD else none)
      = (if f.seedRD = "" then none else some f.seedRD) := by
    by_cases h : f.seedRD = "" <;> simp [h]
  have hr2 := hr
  unfold cmd.seedRunE at hr2
  simp only [← hcl, ← ht, s1.1, hrd, ← hv, s2.1, ← hp, s3.1, ← hk, s4.1, ← htarget, ← hip]
    at hr2
  clear hr ht hv hp hk hip htarget
  refine ⟨?_, ?_⟩
  · refine ⟨?_, ?_, ?_, ?_, ?_, ?_⟩
    · intro e h1; rw [hr2, h1]; exact ⟨rfl, rfl⟩
    · intro h1 e h2; rw [hr2, h1, h2]; exact ⟨rfl, rfl⟩
    · intro h1 h2 e h3; rw [hr2, h1, h2, h3]; exact ⟨rfl, rfl⟩
    · intro h1 h2 h3 e h4; rw [hr2, h1, h2, h3, h4]; exact ⟨rfl, rfl⟩
    · intro h1 h2 h3 h4 e h5; rw [hr2, h1, h2, h3, h4, h5]; exact ⟨rfl, rfl⟩
    · intro h1 h2 h3 h4 h5; rw [hr2, h1, h2, h3, h4, h5]; exact ⟨rfl, rfl⟩
  · rcases s1.2 with ⟨a1, b1⟩ | ⟨q1, a1, b1⟩
    · obtain ⟨e, he⟩ := Option.ne_none_iff_exists'.1 b1
      exact ⟨[], by rw [hr2, he]; simpa using a1, by simp⟩
    rcases h1 : t.err with _ | e
    swap
    · exact ⟨[q1], by rw [hr2, h1]; simpa using a1, by simp [b1]⟩
    rcases s2.2 with ⟨a2, b2⟩ | ⟨q2, a2, b2⟩
    · obtain ⟨e, he⟩ := Option.ne_none_iff_exists'.1 b2
      exact ⟨[q1], by rw [hr2, h1, he]; simp [a2, a1], by simp [b1]⟩
    rcases h2 : v.err with _ | e
    swap
    · exact ⟨[q1, q2], by rw [hr2, h1, h2]; simp [a2, a1], by simp [b1, b2]⟩
    rcases s3.2 with ⟨a3, b3⟩ | ⟨q3, a3, b3⟩
    · obtain ⟨e, he⟩ := Option.ne_none_iff_exists'.1 b3
      exact ⟨[q1, q2], by rw [hr2, h1, h2, he]; simp [a3, a2, a1], by simp [b1, b2]⟩
    rcases h3 : p.err with _ | e
    swap
    · exact ⟨[q1, q2, q3], by rw [hr2, h1, h2, h3]; simp [a3, a2, a1], by simp [b1, b2, b3]⟩
    rcases s4.2 with ⟨a4, b4⟩ | ⟨q4, a4, b4⟩
    · obtain ⟨e, he⟩ := Option.ne_none_iff_exists'.1 b4
      exact ⟨[q1, q2, q3], by rw [hr2, h1, h2, h3, he]; simp [a4, a3, a2, a1],
        by simp [b1, b2, b3]⟩
    rcases h4 : kids.err with _ | e
    swap
    · exact ⟨[q1, q2, q3, q4], by rw [hr2, h1, h2, h3, h4]; simp [a4, a3, a2, a1],
        by simp [b1, b2, b3, b4]⟩
    rcases s5.2 with ⟨a5, b5⟩ | ⟨q5, a5, b5⟩
    · obtain ⟨e, he⟩ := Option.ne_none_iff_exists'.1 b5
      exact ⟨[q1, q2, q3, q4], by rw [hr2, h1, h2, h3, h4, he]; simp [a5, a4, a3, a2, a1],
        by simp [b1, b2, b3, b4]⟩
    refine ⟨[q1, q2, q3, q4, q5], ?_, by simp [b1, b2, b3, b4, b5]⟩
    rw [hr2, h1, h2, h3, h4]
    rcases h5 : ip.err with _ | e <;> simp [a5, a4, a3, a2, a1]

/-- C9: the seed workflow calls create-tenant, create-vrf, create-prefix, carve-children and
next-ip in this order, the VRF under the returned tenant id, the prefix under the returned
VRF id, the carve under the returned prefix id, and next-ip on the first carved child when
there is one and on the root prefix otherwise; at the first call that fails it stops, having
made no further call, and returns that call's error wrapped with the step's label. -/
theorem cmd.seed_sequence (env : Env) (root : cmd.RootFlags) (f : cmd.SeedFlags)
    (sent : List Request) :
    let cl := New root.baseURL root.idemKey
    let t := cl.CreateTenant env sent f.seedTenant
    let v := cl.CreateVRF env t.sent t.out.ID f.seedVRF
      (if f.seedRD = "" then none else some f.seedRD)
    let p := cl.CreatePrefix env v.sent v.out.ID f.seedCIDR f.seedStatus "seed root"
    let kids := cl.CarveChildren env p.sent p.out.ID f.seedMask f.seedCount
    let target := cmd.seedTarget p.out.ID kids.out
    let ip := cl.NextIP env kids.sent target
    let r := cmd.seedRunE env root f sent
    ((∀ e, t.err = some e →
        r.sent = t.sent ∧ r.err = some (.wrapf "create tenant: " e "")) ∧
     (t.err = none → ∀ e, v.err = some e →
        r.sent = v.sent ∧ r.err = some (.wrapf "create vrf: " e "")) ∧
     (t.err = none → v.err = none → ∀ e, p.err = some e →
        r.sent = p.sent ∧ r.err = some (.wrapf "create prefix: " e "")) ∧
     (t.err = none → v.err = none → p.err = none → ∀ e, kids.err = some e →
        r.sent = kids.sent ∧ r.err = some (.wrapf "carve children: " e "")) ∧
     (t.err = none → v.err = none → p.err = none → kids.err = none → ∀ e, ip.err = some e →
        r.sent = ip.sent ∧ r.err = some (.wrapf "next ip: " e "")) ∧
     (t.err = none → v.err = none → p.err = none → kids.err = none → ip.err = none →
        r.sent = ip.sent ∧ r.err = none)) ∧
    (∃ calls : List Request, r.sent = sent ++ calls ∧
      calls.map (fun q => (q.Method, q.URL, q.Body.bind (fun b => b.get "tenant_id"),
          q.Body.bind (fun b => b.get "vrf_id"))) <+:
        [("POST", cl.BaseURL ++ "/v1/tenants", none, none),
         ("POST", cl.BaseURL ++ "/v1/vrfs", some (.str t.out.ID), none),
         ("POST", cl.BaseURL ++ "/v1/prefixes", none, some (.str v.out.ID)),
         ("POST", cl.BaseURL ++ ("/v1/prefixes/" ++ p.out.ID ++ "/children"), none, none),
         ("POST", cl.BaseURL ++ ("/v1/prefixes/" ++ target ++ "/ips/next"), none, none)]) ∧
    ((kids.out = none ∨ kids.out = some []) → target = p.out.ID) ∧
    (∀ k ks, kids.out = some (k :: ks) → target = k.ID) := by
  intro cl t v p kids target ip r
  have h := cmd.seedRunE_aux env root f sent cl t v p kids target ip r rfl rfl rfl rfl rfl rfl
    rfl rfl
  refine ⟨h.1, h.2, ?_, ?_⟩
  · intro hk
    show cmd.seedTarget p.out.ID kids.out = p.out.ID
    rcases hk with hk | hk <;> rw [hk] <;> rfl
  · intro k ks hk
    show cmd.seedTarget p.out.ID kids.out = k.ID
    rw [hk]; rfl

/-- C9, at a concrete input: the default flags against a well-behaved service. -/
theorem cmd.seed_sequence_witness :
    (cmd.seedRunE (goEnv (scriptedServer seedScript)) ⟨"", ""⟩ cmd.seedDefaults []).sent.map
        (fun q => q.URL) =
      ["http://127.0.0.1:8000/v1/tenants", "http://127.0.0.1:8000/v1/vrfs",
       "http://127.0.0.1:8000/v1/prefixes", "http://127.0.0.1:8000/v1/prefixes/p1/children",
       "http://127.0.0.1:8000/v1/prefixes/c1/ips/next"] ∧
    (cmd.seedRunE (goEnv (scriptedServer seedScript)) ⟨"", ""⟩ cmd.seedDefaults []).err.isNone
      = true ∧
    ∃ calls : List Request,
      (cmd.seedRunE (goEnv (scriptedServer seedScript)) ⟨"", ""⟩ cmd.seedDefaults []).sent
        = [] ++ calls :=
  ⟨by decide, by decide,
   (cmd.seed_sequence (goEnv (scriptedServer seedScript)) ⟨"", ""⟩ cmd.seedDefaults []).2.1.elim
    (fun calls h => ⟨calls, h.1⟩)⟩

/-! ### Timestamps -/

namespace time

theorem isDigit_digitChar (d : Nat) (h : d ≤ 9) : isDigit (digitChar d) = true := by
  interval_cases d <;> decide

theorem digitVal_digitChar (d : Nat) (h : d ≤ 9) : digitVal (digitChar d) = d := by
  interval_cases d <;> decide

theorem digitChar_ne_quote (d : Nat) (h : d ≤ 9) : digitChar d ≠ '"' := by
  interval_cases d <;> decide

theorem getnum_pad2 (n : Nat) (h : n ≤ 99) (fixed : Bool) (rest : List Char) :
    getnum (pad2 n ++ rest) fixed = some (n, rest) := by
  have h1 : n / 10 ≤ 9 := by omega
  have h2 : n % 10 ≤ 9 := by omega
  simp only [pad2, getnum, List.cons_append, List.nil_append, isDigit_digitChar _ h1,
    isDigit_digitChar _ h2, digitVal_digitChar _ h1, digitVal_digitChar _ h2]
  simp
  omega

theorem atoiDigits_pad4 (n : Nat) (h : n ≤ 9999) :
    atoiDigits [digitChar (n / 1000), digitChar (n / 100 % 10), digitChar (n / 10 % 10),
      digitChar (n % 10)] = n := by
  have h1 : n / 1000 ≤ 9 := by omega
  have h2 : n / 100 % 10 ≤ 9 := by omega
  have h3 : n / 10 % 10 ≤ 9 := by omega
  have h4 : n % 10 ≤ 9 := by omega
  simp only [atoiDigits, List.foldl, digitVal_digitChar _ h1, digitVal_digitChar _ h2,
    digitVal_digitChar _ h3, digitVal_digitChar _ h4]
  omega

theorem step_lit (c : Char) (rest : List Std) (value : List Char) (f : Fields) :
    step (.lit [c]) rest (c :: value) f = some (value, f) := by
  simp [step]

theorem step_year (year : Nat) (hy : year ≤ 9999) (rest : List Std) (value : List Char)
    (f : Fields) :
    step .stdLongYear rest (pad4 year ++ value) f = some (value, { f with year := year }) := by
  have h1 : year / 1000 ≤ 9 := by omega
  have h2 : year / 100 % 10 ≤ 9 := by omega
  have h3 : year / 10 % 10 ≤ 9 := by omega
  have h4 : year % 10 ≤ 9 := by omega
  simp only [step, pad4, List.cons_append, List.nil_append, isDigit_digitChar _ h1,
    isDigit_digitChar _ h2, isDigit_digitChar _ h3, isDigit_digitChar _ h4, Bool.and_self,
    if_true, atoiDigits_pad4 year hy]

theorem step_month (month : Nat) (hm : 1 ≤ month ∧ month ≤ 12) (rest : List Std)
    (value : List Char) (f : Fields) :
    step .stdZeroMonth rest (pad2 month ++ value) f = some (value, { f with month := month }) := by
  have c1 : ¬ (month = 0 ∨ 12 < month) := by omega
  simp [step, getnum_pad2 month (by omega), c1]

theorem step_day (day : Nat) (hd : day ≤ 99) (rest : List Std) (value : List Char)
    (f : Fields) :
    step .stdZeroDay rest (pad2 day ++ value) f = some (value, { f with day := day }) := by
  simp [step, getnum_pad2 day hd]

theorem step_hour (hour : Nat) (hh : hour ≤ 23) (rest : List Std) (value : List Char)
    (f : Fields) :
    step .stdHour rest (pad2 hour ++ value) f = some (value, { f with hour := hour }) := by
  have c1 : ¬ (24 ≤ hour) := by omega
  simp [step, getnum_pad2 hour (by omega), c1]

theorem step_minute (min : Nat) (hm : min ≤ 59) (rest : List Std) (value : List Char)
    (f : Fields) :
    step .stdZeroMinute rest (pad2 min ++ value) f = some (value, { f with min := min }) := by
  have c1 : ¬ (60 ≤ min) := by omega
  simp [step, getnum_pad2 min (by omega), c1]

/-- The loop on the date and time of day up to the colon before the seconds. -/
theorem parseLoop_core (year month day hour min : Nat) (hy : year ≤ 9999)
    (hmo : 1 ≤ month ∧ month ≤ 12) (hd : day ≤ 99) (hh : hour ≤ 23) (hmi : min ≤ 59)
    (rest : List Std) (value : List Char) :
    parseLoop (.stdLongYear :: .lit ['-'] :: .stdZeroMonth :: .lit ['-'] :: .stdZeroDay ::
        .lit ['T'] :: .stdHour :: .lit [':'] :: .stdZeroMinute :: .lit [':'] :: rest)
      (pad4 year ++ ('-' :: (pad2 month ++ ('-' :: (pad2 day ++ ('T' :: (pad2 hour ++ (':' ::
        (pad2 min ++ (':' :: value)))))))))) {} =
    parseLoop rest value
      { year := year, month := month, day := day, hour := hour, min := min } := by
  simp only [parseLoop, step_year year hy, step_lit, step_month month hmo, step_day day hd,
    step_hour hour hh, step_minute min hmi]

theorem foldl_digitChar (frac : List Nat) (hf : ∀ d ∈ frac, d ≤ 9) (acc : Nat) :
    (frac.map digitChar).foldl (fun acc c => acc * 10 + digitVal c) acc
      = frac.foldl (fun acc d => acc * 10 + d) acc := by
  induction frac generalizing acc with
  | nil => rfl
  | cons d ds ih =>
    simp only [List.map, List.foldl]
    rw [digitVal_digitChar d (hf d (by simp))]
    exact ih (fun x hx => hf x (by simp [hx])) _

theorem fracSecond_digits (frac : List Nat) (hne : frac ≠ []) (hf : ∀ d ∈ frac, d ≤ 9)
    (hlen : frac.length ≤ 9) (rest : List Char) (hrest : rest.takeWhile isDigit = []) :
    fracSecond ('.' :: (frac.map digitChar ++ rest)) = some (fracNanos frac, rest) := by
  have hall : ∀ a ∈ frac.map digitChar, isDigit a = true := by
    intro a ha
    obtain ⟨d, hd, rfl⟩ := List.mem_map.1 ha
    exact isDigit_digitChar d (hf d hd)
  have htake : (frac.map digitChar ++ rest).takeWhile isDigit = frac.map digitChar := by
    rw [List.takeWhile_append_of_pos hall, hrest, List.append_nil]
  have hdrop : (frac.map digitChar ++ rest).dropWhile isDigit = rest := by
    rw [List.dropWhile_append_of_pos hall]
    cases rest with
    | nil => rfl
    | cons c cs =>
      by_cases hc : isDigit c = true
      · simp [List.takeWhile, hc] at hrest
      · simp [List.dropWhile, hc]
  cases frac with
  | nil => exact absurd rfl hne
  | cons d ds =>
    have hd : isDigit (digitChar d) = true := isDigit_digitChar d (hf d (by simp))
    have htk : ((d :: ds).map digitChar).take 9 = (d :: ds).map digitChar := by
      apply List.take_of_length_le
      simpa using hlen
    simp only [List.map, List.cons_append] at htake hdrop htk ⊢
    simp only [fracSecond, commaOrPeriod, hd, htake, hdrop, htk]
    simp only [beq_self_eq_true, Bool.true_or, Bool.and_self, if_true, fracNanos, atoiDigits]
    have := foldl_digitChar (d :: ds) hf 0
    simp only [List.map] at this
    rw [this]
    simp

theorem step_second (sec : Nat) (hs : sec ≤ 59) (rest : List Std)
    (hrest : nextStd rest = some .stdFracSecond9) (value : List Char) (f : Fields) :
    step .stdZeroSecond rest (pad2 sec ++ value) f = some (value, { f with sec := sec }) := by
  have c1 : ¬ (60 ≤ sec) := by omega
  simp [step, getnum_pad2 sec (by omega), c1, hrest]

/-- The fraction chunk on the fraction of a naive text, followed by nothing or by Z. -/
theorem step_frac (frac : List Nat) (hf : ∀ d ∈ frac, d ≤ 9) (hlen : frac.length ≤ 9)
    (rest : List Std) (tail : List Char) (htail : tail = [] ∨ tail = ['Z'])
    (year month day hour min sec : Nat) :
    step .stdFracSecond9 rest ((if frac = [] then [] else '.' :: frac.map digitChar) ++ tail)
      { year := year, month := month, day := day, hour := hour, min := min, sec := sec } =
    some (tail, { year := year, month := month, day := day, hour := hour, min := min,
                  sec := sec, nsec := fracNanos frac }) := by
  have ht : tail.takeWhile isDigit = [] := by
    rcases htail with h | h <;> subst h <;> decide
  by_cases hne : frac = []
  · subst hne
    have : fracSecond tail = none := by
      rcases htail with h | h <;> subst h <;> rfl
    simp [step, this, fracNanos]
  · simp only [hne, if_false, List.cons_append, step,
      fracSecond_digits frac hne hf hlen tail ht]

end time

theorem strings.Trim_quoted (l : List Char) (hne : l ≠ []) (hq : ∀ c ∈ l, c ≠ '"') :
    strings.Trim ⟨'"' :: (l ++ ['"'])⟩ "\"" = ⟨l⟩ := by
  have hp : ∀ c : Char, c ≠ '"' → ("\"".data.contains c) = false := by
    intro c hc
    simp [hc]
  have hpq : ("\"".data.contains '"') = true := by decide
  apply String.ext
  simp only [strings.Trim]
  cases l with
  | nil => exact absurd rfl hne
  | cons a m =>
    have ha : ("\"".data.contains a) = false := hp a (hq a (by simp))
    have h1 : List.dropWhile (fun c => "\"".data.contains c) ('"' :: ((a :: m) ++ ['"']))
        = (a :: m) ++ ['"'] := by
      rw [List.dropWhile_cons_of_pos hpq, List.cons_append,
        List.dropWhile_cons_of_neg (by rw [ha]; exact Bool.false_ne_true)]
    rw [h1, List.reverse_append, List.reverse_singleton, List.singleton_append,
      List.dropWhile_cons_of_pos hpq]
    cases hr : (a :: m).reverse with
    | nil => simp at hr
    | cons z zs =>
      have hz : z ∈ a :: m := by
        rw [← List.mem_reverse, hr]; simp
      have hzq : ("\"".data.contains z) = false := hp z (hq z hz)
      rw [List.dropWhile_cons_of_neg (by rw [hzq]; exact Bool.false_ne_true), ← hr,
        List.reverse_reverse]

namespace time

theorem naiveText_data (year month day hour min sec : Nat) (frac : List Nat)
    (tail : List Char) :
    (naiveText year month day hour min sec frac).data ++ tail =
      pad4 year ++ ('-' :: (pad2 month ++ ('-' :: (pad2 day ++ ('T' :: (pad2 hour ++ (':' ::
        (pad2 min ++ (':' :: (pad2 sec ++
          ((if frac = [] then [] else '.' :: frac.map digitChar) ++ tail))))))))))) := by
  simp [naiveText, List.append_assoc]

theorem naiveText_no_quote (year month day hour min sec : Nat) (frac : List Nat)
    (hy : year ≤ 9999) (hmo : month ≤ 99) (hd : day ≤ 99) (hh : hour ≤ 99) (hmi : min ≤ 99)
    (hs : sec ≤ 99) (hf : ∀ d ∈ frac, d ≤ 9) :
    ∀ c ∈ (naiveText year month day hour min sec frac).data, c ≠ '"' := by
  have hdq : ∀ d, d ≤ 9 → digitChar d ≠ '"' := digitChar_ne_quote
  have hp2 : ∀ n, n ≤ 99 → ∀ c ∈ pad2 n, c ≠ '"' := by
    intro n hn c hc
    simp only [pad2, List.mem_cons, List.mem_singleton, List.not_mem_nil, or_false] at hc
    rcases hc with rfl | rfl
    · exact hdq _ (by omega)
    · exact hdq _ (by omega)
  have hp4 : ∀ c ∈ pad4 year, c ≠ '"' := by
    intro c hc
    simp only [pad4, List.mem_cons, List.mem_singleton, List.not_mem_nil, or_false] at hc
    rcases hc with rfl | rfl | rfl | rfl <;> exact hdq _ (by omega)
  have hfr : ∀ c ∈ (if frac = [] then [] else '.' :: frac.map digitChar), c ≠ '"' := by
    intro c hc
    by_cases hne : frac = []
    · simp [hne] at hc
    · simp only [hne, if_false, List.mem_cons, List.mem_map] at hc
      rcases hc with rfl | ⟨d, hd, rfl⟩
      · decide
      · exact hdq d (hf d hd)
  intro c hc
  have := naiveText_data year month day hour min sec frac []
  rw [List.append_nil] at this
  rw [this] at hc
  simp only [List.mem_append, List.mem_cons, List.append_nil] at hc
  rcases hc with h | rfl | h | rfl | h | rfl | h | rfl | h | rfl | h | h
  · exact hp4 c h
  · decide
  · exact hp2 _ hmo c h
  · decide
  · exact hp2 _ hd c h
  · decide
  · exact hp2 _ hh c h
  · decide
  · exact hp2 _ hmi c h
  · decide
  · exact hp2 _ hs c h
  · exact hfr c h

/-- The three parses that decide `APITime.UnmarshalJSON` on a valid naive text. -/
theorem parseLoop_naive (year month day hour min sec : Nat) (frac : List Nat)
    (hy : year ≤ 9999) (hmo : 1 ≤ month ∧ month ≤ 12) (hd : day ≤ 99) (hh : hour ≤ 23)
    (hmi : min ≤ 59) (hs : sec ≤ 59) (hf : ∀ d ∈ frac, d ≤ 9) (hlen : frac.length ≤ 9) :
    parseLoop RFC3339Nano (naiveText year month day hour min sec frac).data {} = none ∧
    parseLoop layoutMicro (naiveText year month day hour min sec frac).data {} =
      some { year := year, month := month, day := day, hour := hour, min := min, sec := sec,
             nsec := fracNanos frac } ∧
    parseLoop RFC3339Nano ((naiveText year month day hour min sec frac).data ++ ['Z']) {} =
      some { year := year, month := month, day := day, hour := hour, min := min, sec := sec,
             nsec := fracNanos frac, zoneOffset := some 0 } := by
  have h0 := naiveText_data year month day hour min sec frac []
  rw [List.append_nil] at h0
  have hZ := naiveText_data year month day hour min sec frac ['Z']
  refine ⟨?_, ?_, ?_⟩
  · rw [h0, RFC3339Nano, parseLoop_core year month day hour min hy hmo hd hh hmi]
    simp only [parseLoop, step_second sec hs [.stdFracSecond9, .stdISO8601ColonTZ] rfl,
      step_frac frac hf hlen _ [] (Or.inl rfl)]
    simp [step]
  · rw [h0, layoutMicro, parseLoop_core year month day hour min hy hmo hd hh hmi]
    simp only [parseLoop, step_second sec hs [.stdFracSecond9] rfl,
      step_frac frac hf hlen _ [] (Or.inl rfl)]
    simp
  · rw [hZ, RFC3339Nano, parseLoop_core year month day hour min hy hmo hd hh hmi]
    simp only [parseLoop, step_second sec hs [.stdFracSecond9, .stdISO8601ColonTZ] rfl,
      step_frac frac hf hlen _ ['Z'] (Or.inr rfl)]
    simp [step]

end time

theorem time.daysIn_le (month year : Nat) : time.daysIn month year ≤ 31 := by
  unfold time.daysIn
  split
  · split <;> omega
  · split <;> omega

/-- C8: for every valid naive timestamp text d (YYYY-MM-DDTHH:MM:SS, optionally followed by
a period and one to six digits), `UnmarshalJSON` applied to the JSON string d succeeds, and so
does `UnmarshalJSON` applied to the JSON string dZ, both yielding the instant of the fields of
d read as UTC; applied to the empty JSON string it succeeds and leaves the value as it was,
in particular the zero instant. -/
theorem APITime.UnmarshalJSON_naive :
    (∀ (unmarshalTime : Unmarshal time.Time) (t : APITime)
        (year month day hour min sec : Nat) (frac : List Nat),
      year ≤ 9999 → (1 ≤ month ∧ month ≤ 12) → (1 ≤ day ∧ day ≤ time.daysIn month year) →
      hour ≤ 23 → min ≤ 59 → sec ≤ 59 → (∀ d ∈ frac, d ≤ 9) → frac.length ≤ 6 →
      APITime.UnmarshalJSON unmarshalTime t
          ("\"" ++ time.naiveText year month day hour min sec frac ++ "\"") =
        ({ Time := time.Date { year := year, month := month, day := day, hour := hour,
                               min := min, sec := sec, nsec := time.fracNanos frac } }, none) ∧
      APITime.UnmarshalJSON unmarshalTime t
          ("\"" ++ time.naiveText year month day hour min sec frac ++ "Z" ++ "\"") =
        ({ Time := time.Date { year := year, month := month, day := day, hour := hour,
                               min := min, sec := sec, nsec := time.fracNanos frac } }, none)) ∧
    (∀ (unmarshalTime : Unmarshal time.Time) (t : APITime),
      APITime.UnmarshalJSON unmarshalTime t "\"\"" = (t, none)) ∧
    APITime.UnmarshalJSON (fun _ t => (t, none)) default "\"\"" = (⟨⟨0, 0⟩⟩, none) := by
  refine ⟨?_, ?_, ?_⟩
  · intro unmarshalTime t year month day hour min sec frac hy hmo hd hh hmi hs hf hlen
    have hd31 := time.daysIn_le month year
    obtain ⟨p1, p2, p3⟩ := time.parseLoop_naive year month day hour min sec frac hy hmo
      (by omega) hh hmi hs hf (by omega)
    have hq := time.naiveText_no_quote year month day hour min sec frac hy (by omega)
      (by omega) (by omega) (by omega) (by omega) hf
    have hne : (time.naiveText year month day hour min sec frac).data ≠ [] := by
      simp [time.naiveText, time.pad4]
    have hday : ¬ (day = 0 ∨ time.daysIn month year < day) := by omega
    constructor
    · have hb : ("\"" ++ time.naiveText year month day hour min sec frac ++ "\"" : String) =
          ⟨'"' :: ((time.naiveText year month day hour min sec frac).data ++ ['"'])⟩ := by
        apply String.ext; simp [String.data_append]
      have hs1 : (⟨(time.naiveText year month day hour min sec frac).data⟩ : String) ≠ "" := by
        intro h; exact hne (congrArg String.data h)
      unfold APITime.UnmarshalJSON
      simp only [hb, strings.Trim_quoted _ hne hq, hs1, if_false, time.Parse, time.parse, p1,
        APITime.layouts, List.findSome?, time.ParseInLocationUTC, p2]
      simp [hday]
    · have hb : ("\"" ++ time.naiveText year month day hour min sec frac ++ "Z" ++ "\""
            : String) =
          ⟨'"' :: (((time.naiveText year month day hour min sec frac).data ++ ['Z']) ++ ['"'])⟩ := by
        apply String.ext; simp [String.data_append]
      have hne2 : (time.naiveText year month day hour min sec frac).data ++ ['Z'] ≠ [] := by
        simp
      have hq2 : ∀ c ∈ (time.naiveText year month day hour min sec frac).data ++ ['Z'],
          c ≠ '"' := by
        intro c hc
        rcases List.mem_append.1 hc with h | h
        · exact hq c h
        · rw [List.mem_singleton.1 h]; decide
      have hs1 : (⟨(time.naiveText year month day hour min sec frac).data ++ ['Z']⟩ : String)
          ≠ "" := by
        intro h; exact hne2 (congrArg String.data h)
      unfold APITime.UnmarshalJSON
      simp only [hb, strings.Trim_quoted _ hne2 hq2, hs1, if_false, time.Parse, time.parse, p3]
      simp [hday, time.Date]
  · intro unmarshalTime t
    have : strings.Trim "\"\"" "\"" = "" := by decide
    simp [APITime.UnmarshalJSON, this]
  · decide

/-- C8, at concrete inputs: the naive second and microsecond values of 2024-01-01 and
their Z-qualified forms. -/
theorem APITime.UnmarshalJSON_naive_witness :
    time.naiveText 2024 1 1 0 0 0 [] = "2024-01-01T00:00:00" ∧
    time.naiveText 2024 1 1 0 0 0 [1, 2, 3, 4, 5, 6] = "2024-01-01T00:00:00.123456" ∧
    (APITime.UnmarshalJSON (fun _ t => (t, none)) default
        ("\"" ++ time.naiveText 2024 1 1 0 0 0 [] ++ "\"") =
      ({ Time := time.Date { year := 2024, month := 1, day := 1, hour := 0, min := 0,
                             sec := 0, nsec := time.fracNanos [] } }, none) ∧
     APITime.UnmarshalJSON (fun _ t => (t, none)) default
        ("\"" ++ time.naiveText 2024 1 1 0 0 0 [] ++ "Z" ++ "\"") =
      ({ Time := time.Date { year := 2024, month := 1, day := 1, hour := 0, min := 0,
                             sec := 0, nsec := time.fracNanos [] } }, none)) ∧
    (APITime.UnmarshalJSON (fun _ t => (t, none)) default
        ("\"" ++ time.naiveText 2024 1 1 0 0 0 [1, 2, 3, 4, 5, 6] ++ "\"") =
      ({ Time := time.Date { year := 2024, month := 1, day := 1, hour := 0, min := 0,
                             sec := 0, nsec := time.fracNanos [1, 2, 3, 4, 5, 6] } }, none) ∧
     APITime.UnmarshalJSON (fun _ t => (t, none)) default
        ("\"" ++ time.naiveText 2024 1 1 0 0 0 [1, 2, 3, 4, 5, 6] ++ "Z" ++ "\"") =
      ({ Time := time.Date { year := 2024, month := 1, day := 1, hour := 0, min := 0,
                             sec := 0, nsec := time.fracNanos [1, 2, 3, 4, 5, 6] } }, none)) :=
  ⟨by decide, by decide,
   APITime.UnmarshalJSON_naive.1 (fun _ t => (t, none)) default 2024 1 1 0 0 0 []
    (by decide) (by decide) (by decide) (by decide) (by decide) (by decide)
    (by decide) (by decide),
   APITime.UnmarshalJSON_naive.1 (fun _ t => (t, none)) default 2024 1 1 0 0 0
    [1, 2, 3, 4, 5, 6]
    (by decide) (by decide) (by decide) (by decide) (by decide) (by decide)
    (by decide) (by decide)⟩
